import Mathlib

/-!
Verification development for the HenrikGr/oauth-service OAuth 2.0 engine.

The JavaScript source is shallowly embedded: dynamically-typed record values
become the inductive `JsVal`; `async` model calls become oracle functions of a
`Model` structure, sequenced in a monad `M` that records the Model calls made
(the "trace"); thrown errors become `Except` failures carrying either an
OAuth error value (name, status, message) or a JS `TypeError`.  Clock reads
(`new Date()`) are represented by an explicit `now : Int` parameter measured
in milliseconds; within one request pipeline the source samples the clock at
several nearby points, which the embedding collapses to the single `now`.
Random token generation (`utils/token.generateRandomToken`) is represented by
explicit oracle strings passed into the flows.
-/

set_option maxRecDepth 4096

/-- JavaScript values, restricted to the shapes the engine manipulates:
`undef` models `undefined` (also used for `null`, which the engine never
distinguishes from `undefined`), `date ms` models a `Date` holding `ms`
milliseconds since the epoch, and `obj` models a plain object as an ordered
field list (insertion order, as in JS). -/
inductive JsVal where
  | undef : JsVal
  | bool : Bool → JsVal
  | num : Int → JsVal
  | str : String → JsVal
  | date : Int → JsVal
  | obj : List (String × JsVal) → JsVal
deriving Repr

namespace JsVal

/-- Structural (decidable) equality on `JsVal`. -/
def beq : JsVal → JsVal → Bool
  | .undef, .undef => true
  | .bool a, .bool b => a == b
  | .num a, .num b => a == b
  | .str a, .str b => a == b
  | .date a, .date b => a == b
  | .obj a, .obj b => beqFields a b
  | _, _ => false
where
  beqFields : List (String × JsVal) → List (String × JsVal) → Bool
  | [], [] => true
  | (k, v) :: r, (k2, v2) :: r2 => k == k2 && beq v v2 && beqFields r r2
  | _, _ => false

/-- `beq` models the strict-equality comparisons the engine performs (`===`
on ids, grant names, header names), which only ever receive primitive
values; for those, JS strict equality coincides with this structural test. -/
instance : BEq JsVal := ⟨beq⟩

/-- JS truthiness for the values in play: `undefined`, `false`, `0` and `""`
are falsy; objects and `Date`s are always truthy. -/
def truthy : JsVal → Bool
  | .undef => false
  | .bool b => b
  | .num n => n != 0
  | .str s => s != ""
  | .date _ => true
  | .obj _ => true

/-- Property read `v.k` on a value already known to be an object (or on a
primitive, where the engine only reads properties it never finds): yields
`undefined` when the field is absent.  Reads whose receiver may itself be
`undefined` (which throw `TypeError` in JS) use `getE` below instead. -/
def get : JsVal → String → JsVal
  | .obj fs, key => goGet fs key
  | _, _ => .undef
where
  goGet : List (String × JsVal) → String → JsVal
  | [], _ => .undef
  | (k, v) :: r, key => if k == key then v else goGet r key

/-- Set `v.k := x` on an object, JS-style: overwrite in place when the key
exists, append otherwise.  Non-objects are returned unchanged (the engine
only assigns into objects). -/
def set : JsVal → String → JsVal → JsVal
  | .obj fs, key, x => .obj (goSet fs key x)
  | v, _, _ => v
where
  goSet : List (String × JsVal) → String → JsVal → List (String × JsVal)
  | [], key, x => [(key, x)]
  | (k, v) :: r, key, x => if k == key then (k, x) :: r else (k, v) :: goSet r key x

end JsVal

/-! ## Error taxonomy (src/lib/errors)

Each error class carries a wire `name`, an HTTP `status` and a `message`
(`oauth-error.js`: `this.code = this.status = this.statusCode = props.code`). -/

structure OAuthErr where
  name : String
  status : Nat
  message : String
deriving Repr, DecidableEq

/-- A thrown JS exception: either an engine `OAuthError` subclass value, or a
plain `TypeError` raised by the runtime (e.g. reading a property of
`undefined`).  `setErrorResponse` wraps the latter into `server_error`. -/
inductive Thrown where
  | oauth : OAuthErr → Thrown
  | typeError : String → Thrown
deriving Repr, DecidableEq

namespace Errors

/-- `invalid-grant.js`: code 400, name `invalid_grant`. -/
def invalidGrant (msg : String) : Thrown := .oauth ⟨"invalid_grant", 400, msg⟩

/-- `server-error.js`: code 500, name `server_error`. -/
def serverError (msg : String) : Thrown := .oauth ⟨"server_error", 500, msg⟩

/-- `access-denied.js` (bundled classes): code 400, name `invalid_request`. -/
def invalidRequest (msg : String) : Thrown := .oauth ⟨"invalid_request", 400, msg⟩

/-- `invalid-client.js`: code 400, name `invalid_client`. -/
def invalidClient (msg : String) : Thrown := .oauth ⟨"invalid_client", 400, msg⟩

/-- `invalid-token.js`: code 401, name `invalid_token`. -/
def invalidToken (msg : String) : Thrown := .oauth ⟨"invalid_token", 401, msg⟩

/-- `unauthorized-request.js`: code 401, name `unauthorized_request`. -/
def unauthorizedRequest (msg : String) : Thrown := .oauth ⟨"unauthorized_request", 401, msg⟩

/-- `invalid-scope.js`: code 400, name `invalid_scope`. -/
def invalidScope (msg : String) : Thrown := .oauth ⟨"invalid_scope", 400, msg⟩

/-- `access-denied.js` (bundled classes): code 500, name `invalid_argument`. -/
def invalidArgument (msg : String) : Thrown := .oauth ⟨"invalid_argument", 500, msg⟩

end Errors

/-! ## Character-class validators (src/lib/validator/is.js)

The source patterns are anchored `^[...]+$` regexes over single-character
classes, so each predicate is "non-empty and every character in the class".
The embedded classes transcribe the source character classes literally —
including the `|` bars that the source writes between the class members,
which inside a JS character class are literal `|` characters. -/

namespace Is

/-- Character range test on code points. -/
def between (lo hi : Char) (c : Char) : Bool :=
  lo.toNat ≤ c.toNat && c.toNat ≤ hi.toNat

/-- JS `\w`: ASCII letters, digits and underscore. -/
def wordChar (c : Char) : Bool :=
  between 'a' 'z' c || between 'A' 'Z' c || between '0' '9' c || c == '_'

/-- Membership in the source class `[-|.|_|\w]` of
`Rules.NCHAR`: `-`, `.`, `_`, any word character — and the literal `|`
written between them. -/
def ncharClass (c : Char) : Bool :=
  c == '-' || c == '|' || c == '.' || c == '_' || wordChar c

/-- `is.nchar`: anchored test of `Rules.NCHAR`. -/
def nchar (s : String) : Bool :=
  s != "" && s.toList.all ncharClass

/-- Membership in the source class of `Rules.VSCHAR` (` `–`~`). -/
def vscharClass (c : Char) : Bool :=
  between ' ' '~' c

/-- `is.vschar`: anchored test of `Rules.VSCHAR`. -/
def vschar (s : String) : Bool :=
  s != "" && s.toList.all vscharClass

/-- `is.uri`: `Rules.URI = /^[a-zA-Z][a-zA-Z0-9+.-]+:/` — an unanchored-tail
scheme-prefix check: a letter, then one or more scheme characters, then `:`. -/
def uri (s : String) : Bool :=
  goUri s.toList
where
  schemeChar (c : Char) : Bool :=
    between 'a' 'z' c || between 'A' 'Z' c || between '0' '9' c
      || c == '+' || c == '.' || c == '-'
  goUri : List Char → Bool
  | c :: rest => (between 'a' 'z' c || between 'A' 'Z' c) && goTail rest false
  | [] => false
  goTail : List Char → Bool → Bool
  | c :: rest, seen =>
      if c == ':' then seen
      else schemeChar c && goTail rest true
  | [], _ => false

end Is

/-! ## Requests and responses (src/lib/server.js, part of src/unnamed/part_001)

Per §3 of the design, `query` and `body` are string→string maps; header keys
are stored lowercased.  `formUrlEncoded` models the outcome of
`request.is('application/x-www-form-urlencoded')`. -/

def lookupStr (l : List (String × String)) (k : String) : Option String :=
  match l with
  | [] => none
  | (k2, v) :: r => if k2 == k then some v else lookupStr r k

/-- Overwrite-or-append assignment on a string map, mirroring JS property
assignment on the objects `url.parse` returns. -/
def setParam (l : List (String × String)) (k v : String) : List (String × String) :=
  match l with
  | [] => [(k, v)]
  | (k2, v2) :: r => if k2 == k then (k2, v) :: r else (k2, v2) :: setParam r k v

/-- JS truthiness of an optional string-valued field: absent or `""` is falsy. -/
def optTruthy : Option String → Bool
  | none => false
  | some s => s != ""

/-- ASCII lowercasing (`String.prototype.toLowerCase` on the header names in
play, which are ASCII). -/
def asciiLower (s : String) : String :=
  String.mk (s.toList.map fun c =>
    if 'A'.toNat ≤ c.toNat && c.toNat ≤ 'Z'.toNat then Char.ofNat (c.toNat + 32) else c)

structure Request where
  method : String
  headers : List (String × String)
  query : List (String × String)
  body : List (String × String)
  formUrlEncoded : Bool
deriving Repr, DecidableEq

/-- `Request.get(field)`: case-insensitive header lookup. -/
def Request.get (r : Request) (field : String) : Option String :=
  lookupStr r.headers (asciiLower field)

structure Resp where
  status : Nat
  headers : List (String × String)
  body : JsVal
deriving Repr

/-- A fresh `Response`: status 200, no headers, empty body object. -/
def Resp.init : Resp := ⟨200, [], .obj []⟩

/-- `Response.set(field, value)`: headers are stored lowercased. -/
def Resp.setHeader (r : Resp) (field value : String) : Resp :=
  { r with headers := setParam r.headers (asciiLower field) value }

def Resp.setBody (r : Resp) (body : JsVal) : Resp :=
  { r with body := body }

def Resp.setStatus (r : Resp) (status : Nat) : Resp :=
  { r with status := status }

/-- Case-insensitive response-header read (`Response.get`). -/
def Resp.getHeader (r : Resp) (field : String) : Option String :=
  lookupStr r.headers (asciiLower field)

/-! ## The Model oracle and the engine's effect monad

The Model is the host-supplied data-access backend.  Each capability is an
oracle function; optional capabilities (`validateScope`, the generators) are
`Option`s, matching the source's `if (this.model.xxx)` capability probes.
Oracles are pure: a call's result is a function of its arguments. -/

structure Model where
  getClient : Option String → Option String → JsVal
  getAuthorizationCode : String → JsVal
  revokeAuthorizationCode : JsVal → JsVal
  getRefreshToken : String → JsVal
  revokeRefreshToken : JsVal → JsVal
  getAccessToken : String → JsVal
  revokeAccessToken : JsVal → JsVal
  saveToken : JsVal → JsVal → JsVal → JsVal
  validateScope : Option (JsVal → JsVal → JsVal → JsVal)
  generateAccessToken : Option (JsVal → JsVal → JsVal → JsVal)
  generateRefreshToken : Option (JsVal → JsVal → JsVal → JsVal)
  verifyScope : JsVal → JsVal → JsVal

/-- Persistence-relevant Model invocations, recorded in order. -/
inductive MEvent where
  | getAuthorizationCode : String → MEvent
  | revokeAuthorizationCode : JsVal → MEvent
  | getRefreshToken : String → MEvent
  | revokeRefreshToken : JsVal → MEvent
  | getAccessToken : String → MEvent
  | revokeAccessToken : JsVal → MEvent
  | saveToken : (client : JsVal) → (user : JsVal) → (token : JsVal) → MEvent
  | getClient : Option String → Option String → MEvent
deriving Repr

/-- The engine's effect monad: a state-passing computation over the list of
Model calls made so far, failing with a thrown exception.  The trace is kept
on failure, so "call X was never made" is expressible for error runs. -/
def M (α : Type) : Type := List MEvent → Except Thrown α × List MEvent

namespace M

def pure {α : Type} (a : α) : M α := fun tr => (.ok a, tr)

def bind {α β : Type} (x : M α) (f : α → M β) : M β := fun tr =>
  match x tr with
  | (.ok a, tr2) => f a tr2
  | (.error e, tr2) => (.error e, tr2)

instance : Monad M where
  pure := M.pure
  bind := M.bind

def throw {α : Type} (e : Thrown) : M α := fun tr => (.error e, tr)

/-- A Model call: record the event, return the oracle's result. -/
def call (ev : MEvent) (result : JsVal) : M JsVal := fun tr => (.ok result, tr ++ [ev])

def run {α : Type} (x : M α) : Except Thrown α × List MEvent := x []

end M

namespace Model

def callGetAuthorizationCode (m : Model) (code : String) : M JsVal :=
  M.call (.getAuthorizationCode code) (m.getAuthorizationCode code)

def callRevokeAuthorizationCode (m : Model) (code : JsVal) : M JsVal :=
  M.call (.revokeAuthorizationCode code) (m.revokeAuthorizationCode code)

def callGetRefreshToken (m : Model) (tok : String) : M JsVal :=
  M.call (.getRefreshToken tok) (m.getRefreshToken tok)

def callRevokeRefreshToken (m : Model) (tok : JsVal) : M JsVal :=
  M.call (.revokeRefreshToken tok) (m.revokeRefreshToken tok)

def callGetAccessToken (m : Model) (tok : String) : M JsVal :=
  M.call (.getAccessToken tok) (m.getAccessToken tok)

def callRevokeAccessToken (m : Model) (tok : JsVal) : M JsVal :=
  M.call (.revokeAccessToken tok) (m.revokeAccessToken tok)

def callSaveToken (m : Model) (client user token : JsVal) : M JsVal :=
  M.call (.saveToken client user token) (m.saveToken client user token)

def callGetClient (m : Model) (id secret : Option String) : M JsVal :=
  M.call (.getClient id secret) (m.getClient id secret)

end Model

/-! ## Node's legacy `url` module (the operations the engine uses)

`urlParse s` models `url.parse(s, true)`: `hash` is everything from the
first `#`; `search` is everything from the first `?` before the hash (with
the `?`, or absent); `query` is the parsed search string.  `urlFormat`
models `url.format`: the `search` string, when present, takes precedence
over the `query` object; an empty `query` contributes nothing.
Percent-encoding is elided: the values the engine passes through these
operations in the verified properties are URL-safe. -/

def splitOnce : List Char → Char → List Char × Option (List Char)
  | [], _ => ([], none)
  | x :: xs, c =>
      if x == c then ([], some xs)
      else
        let (a, b) := splitOnce xs c
        (x :: a, b)

/-- Split a character list at every occurrence of the separator. -/
def splitAll : List Char → Char → List (List Char)
  | [], _ => [[]]
  | c :: r, sep =>
      if c == sep then [] :: splitAll r sep
      else
        match splitAll r sep with
        | [] => [[c]]
        | g :: gs => (c :: g) :: gs

/-- `querystring.parse` on a search string (without the `?`): `&`-separated
segments, each split at its first `=` (a segment without `=` maps to `""`);
empty segments are dropped.  Percent-decoding is elided, as in `urlFormat`. -/
def parseQuery (s : String) : List (String × String) :=
  (splitAll s.toList '&').filterMap fun kv =>
    if kv.isEmpty then none
    else
      let (k, v) := splitOnce kv '='
      match v with
      | none => some (String.mk k, "")
      | some vs => some (String.mk k, String.mk vs)

structure UrlObj where
  base : String
  search : Option String
  query : List (String × String)
  hash : Option String
deriving Repr, DecidableEq

def urlParse (s : String) : UrlObj :=
  let (beforeHash, hashTail) := splitOnce s.toList '#'
  let (baseChars, searchTail) := splitOnce beforeHash '?'
  { base := String.mk baseChars
    search := searchTail.map fun q => "?" ++ String.mk q
    query := match searchTail with
      | some q => parseQuery (String.mk q)
      | none => []
    hash := hashTail.map fun h => "#" ++ String.mk h }

def stringifyQuery : List (String × String) → String
  | [] => ""
  | [(k, v)] => k ++ "=" ++ v
  | (k, v) :: rest => k ++ "=" ++ v ++ "&" ++ stringifyQuery rest

def urlFormat (u : UrlObj) : String :=
  u.base ++
    (match u.search with
     | some s => s
     | none => match u.query with
       | [] => ""
       | q => "?" ++ stringifyQuery q) ++
    (match u.hash with
     | some h => h
     | none => "")

/-- The `{ query: {} }` object the authorization error path starts from when
no redirect URI was supplied. -/
def UrlObj.empty : UrlObj := ⟨"", none, [], none⟩

/-! ## Grant plumbing (src/lib/grants/abstract-grant.js, src/lib/models) -/

def M.ofExcept {α : Type} (e : Except Thrown α) : M α := fun tr => (e, tr)

/-- The option record shared by the token-endpoint grants. -/
structure GrantOptions where
  accessTokenLifetime : Int
  refreshTokenLifetime : Int
  alwaysIssueNewRefreshToken : Bool
  allowExtendedTokenAttributes : Bool
deriving Repr, DecidableEq

/-- `value instanceof Date` on an embedded value. -/
def isDate : JsVal → Bool
  | .date _ => true
  | _ => false

/-- `is.uri(value)` on a possibly non-string value: JS stringifies the
receiver first, and none of the non-string stringifications the engine can
produce pass the scheme-prefix test. -/
def Is.uriVal : JsVal → Bool
  | .str s => Is.uri s
  | _ => false

namespace AbstractGrant

/-- `generateAccessToken`: the Model hook when present (falling back to a
random token on a falsy result), else a random token.  `fresh` is the
oracle for `tokenUtil.generateRandomToken()`. -/
def generateAccessToken (m : Model) (client user scope : JsVal) (fresh : String) : JsVal :=
  match m.generateAccessToken with
  | some gen =>
      let token := gen client user scope
      if token.truthy then token else .str fresh
  | none => .str fresh

/-- `generateRefreshToken`: same shape as `generateAccessToken`. -/
def generateRefreshToken (m : Model) (client user scope : JsVal) (fresh : String) : JsVal :=
  match m.generateRefreshToken with
  | some gen =>
      let token := gen client user scope
      if token.truthy then token else .str fresh
  | none => .str fresh

/-- `setAccessTokenExpiresAt`: `now + accessTokenLifetime * 1000` ms. -/
def setAccessTokenExpiresAt (opts : GrantOptions) (now : Int) : JsVal :=
  .date (now + opts.accessTokenLifetime * 1000)

/-- `setRefreshTokenExpiresAt`: `now + refreshTokenLifetime * 1000` ms. -/
def setRefreshTokenExpiresAt (opts : GrantOptions) (now : Int) : JsVal :=
  .date (now + opts.refreshTokenLifetime * 1000)

/-- `validateScope`: delegate to the Model capability when present (falsy
result → `invalid_scope`), else pass the scope through. -/
def validateScope (m : Model) (client user scope : JsVal) : M JsVal :=
  match m.validateScope with
  | some vs =>
      let validatedScope := vs client user scope
      if validatedScope.truthy then M.pure validatedScope
      else M.throw (Errors.invalidScope "Invalid scope: Requested scope is invalid")
  | none => M.pure scope

end AbstractGrant

/-- `models/token.js` attribute list. -/
def modelAttributes : List String :=
  ["accessToken", "accessTokenExpiresAt", "refreshToken", "refreshTokenExpiresAt",
   "scope", "client", "user"]

structure TokenModel where
  accessToken : JsVal
  accessTokenExpiresAt : JsVal
  refreshToken : JsVal
  refreshTokenExpiresAt : JsVal
  scope : JsVal
  client : JsVal
  user : JsVal
  customAttributes : JsVal
  accessTokenLifetime : JsVal
deriving Repr

/-- The custom-attribute sweep of the `TokenModel` constructor: the own
fields of `data` outside `modelAttributes`. -/
def extendedAttrs : JsVal → JsVal
  | .obj fs => .obj (fs.filter fun kv => !(modelAttributes.contains kv.1))
  | _ => .obj []

/-- The `TokenModel` constructor (`models/token.js`): contract checks on the
record the Model returned from `saveToken`, plus the derived
`accessTokenLifetime = floor((accessTokenExpiresAt - now) / 1000)`. -/
def TokenModel.init (data : JsVal) (allowExtendedTokenAttributes : Bool) (now : Int) :
    Except Thrown TokenModel :=
  if !(data.get "accessToken").truthy then
    .error (Errors.invalidArgument "Missing parameter: `accessToken`")
  else if !(data.get "client").truthy then
    .error (Errors.invalidArgument "Missing parameter: `client`")
  else if !(data.get "user").truthy then
    .error (Errors.invalidArgument "Missing parameter: `user`")
  else if (data.get "accessTokenExpiresAt").truthy && !isDate (data.get "accessTokenExpiresAt") then
    .error (Errors.invalidArgument "Invalid parameter: `accessTokenExpiresAt`")
  else if (data.get "refreshTokenExpiresAt").truthy && !isDate (data.get "refreshTokenExpiresAt") then
    .error (Errors.invalidArgument "Invalid parameter: `refreshTokenExpiresAt`")
  else
    .ok
      { accessToken := data.get "accessToken"
        accessTokenExpiresAt := data.get "accessTokenExpiresAt"
        refreshToken := data.get "refreshToken"
        refreshTokenExpiresAt := data.get "refreshTokenExpiresAt"
        scope := data.get "scope"
        client := data.get "client"
        user := data.get "user"
        customAttributes :=
          if allowExtendedTokenAttributes then extendedAttrs data else .undef
        accessTokenLifetime :=
          match data.get "accessTokenExpiresAt" with
          | .date t => .num ((t - now).fdiv 1000)
          | _ => .undef }

/-- `BearerToken(...).valueOf()` (`models/bearer-token`): the wire body. -/
def BearerToken.valueOf (accessToken accessTokenLifetime refreshToken scope customAttributes : JsVal) :
    Except Thrown JsVal :=
  if !accessToken.truthy then
    .error (Errors.invalidArgument "Missing parameter: `accessToken`")
  else
    let object := JsVal.obj [("access_token", accessToken), ("token_type", .str "Bearer")]
    let object := if accessTokenLifetime.truthy then object.set "expires_in" accessTokenLifetime else object
    let object := if refreshToken.truthy then object.set "refresh_token" refreshToken else object
    let object := if scope.truthy then object.set "scope" scope else object
    let object :=
      match customAttributes with
      | .obj fs => fs.foldl (fun o kv => o.set kv.1 kv.2) object
      | _ => object
    .ok object

/-! ## Authorization-code grant
(src/lib/grants/authorization-code/authorization-code-grant.js,
parse step from src/unnamed/part_009) -/

namespace AuthorizationCodeGrant

structure AccessTokenRequest where
  code : String
  redirectUri : String
deriving Repr, DecidableEq

/-- The `AccessTokenRequest` constructor for the authorization-code flow:
`code` required and VSCHAR; `redirect_uri` from body else query must pass
the URI scheme test (an absent value stringifies to `"undefined"` under the
JS regex test and fails it). -/
def AccessTokenRequest.init (request : Request) (client : JsVal) : Except Thrown AccessTokenRequest :=
  if !client.truthy then
    .error (Errors.invalidArgument "Missing parameter: `client`")
  else
    let code := lookupStr request.body "code"
    if !optTruthy code then
      .error (Errors.invalidRequest "Missing parameter: `code`")
    else
      match code with
      | none => .error (Errors.invalidRequest "Missing parameter: `code`")
      | some codeStr =>
        if !Is.vschar codeStr then
          .error (Errors.invalidRequest "Invalid parameter: `code`")
        else
          let redirectUri1 := lookupStr request.body "redirect_uri"
          let redirectUri2 := lookupStr request.query "redirect_uri"
          let redirectUri := if optTruthy redirectUri1 then redirectUri1 else redirectUri2
          match redirectUri with
          | some u =>
              if !Is.uri u then
                .error (Errors.invalidRequest "Invalid request: `redirect_uri` is not a valid URI")
              else
                .ok ⟨codeStr, u⟩
          | none =>
              .error (Errors.invalidRequest "Invalid request: `redirect_uri` is not a valid URI")

/-- `validateAuthorizationCode`: load the code from the Model and run the
contract and expiry checks in source order. -/
def validateAuthorizationCode (m : Model) (now : Int) (accessTokenRequest : AccessTokenRequest)
    (client : JsVal) : M JsVal := do
  let code ← m.callGetAuthorizationCode accessTokenRequest.code
  if !code.truthy then
    M.throw (Errors.invalidGrant "Invalid grant: authorization code is invalid")
  if !(code.get "client").truthy then
    M.throw (Errors.serverError "Server error: `getAuthorizationCode()` did not return a `client` object")
  if !(code.get "user").truthy then
    M.throw (Errors.serverError "Server error: `getAuthorizationCode()` did not return a `user` object")
  if ((code.get "client").get "id") != (client.get "id") then
    M.throw (Errors.invalidGrant "Invalid grant: authorization code is invalid")
  let _ ← (match code.get "expiresAt" with
    | .date t =>
        if t < now then
          M.throw (Errors.invalidGrant "Invalid grant: authorization code has expired")
        else M.pure ()
    | _ => M.throw (Errors.serverError "Server error: `expiresAt` must be a Date instance") : M Unit)
  if (code.get "redirectUri").truthy && !Is.uriVal (code.get "redirectUri") then
    M.throw (Errors.invalidGrant "Invalid grant: `redirect_uri` is not a valid URI")
  M.pure code

/-- `validateRedirectUri`: when the code carries a redirect URI, the request
must repeat it exactly. -/
def validateRedirectUri (code : JsVal) (accessTokenRequest : AccessTokenRequest) :
    Except Thrown Unit :=
  if !(code.get "redirectUri").truthy then .ok ()
  else if JsVal.str accessTokenRequest.redirectUri != code.get "redirectUri" then
    .error (Errors.invalidRequest "Invalid request: `redirect_uri` is invalid")
  else .ok ()

/-- `deleteAuthorizationCode`: revoke via the Model; falsy → `invalid_grant`. -/
def deleteAuthorizationCode (m : Model) (code : JsVal) : M Unit := do
  let status ← m.callRevokeAuthorizationCode code
  if !status.truthy then
    M.throw (Errors.invalidGrant "Invalid grant: authorization code is invalid")

/-- `createToken(client, code)` — parameter names as in the source
(`@param client - The authenticated client`, `@param code - The
authorization code`).  Destructures `user` and `scope` from `code` and
persists via `saveToken(client, user, token)`. -/
def createToken (m : Model) (opts : GrantOptions) (now : Int) (freshAccess freshRefresh : String)
    (client code : JsVal) : M JsVal := do
  let user := code.get "user"
  let scope := code.get "scope"
  let accessScope ← AbstractGrant.validateScope m client user scope
  let accessToken := AbstractGrant.generateAccessToken m client user scope freshAccess
  let refreshToken := AbstractGrant.generateRefreshToken m client user scope freshRefresh
  let accessTokenExpiresAt := AbstractGrant.setAccessTokenExpiresAt opts now
  let refreshTokenExpiresAt := AbstractGrant.setRefreshTokenExpiresAt opts now
  let token := JsVal.obj
    [("accessToken", accessToken), ("accessTokenExpiresAt", accessTokenExpiresAt),
     ("refreshToken", refreshToken), ("refreshTokenExpiresAt", refreshTokenExpiresAt),
     ("scope", accessScope)]
  m.callSaveToken client user token

/-- `execute`: the authorization-code token flow.  Note the call
`createToken(code, client)` at source line 236 — the arguments are passed in
the opposite order to `createToken`'s `(client, code)` parameters, exactly
as in the source. -/
def execute (m : Model) (opts : GrantOptions) (now : Int) (freshAccess freshRefresh : String)
    (request : Request) (client : JsVal) : M JsVal := do
  let accessTokenRequest ← M.ofExcept (AccessTokenRequest.init request client)
  let code ← validateAuthorizationCode m now accessTokenRequest client
  let _ ← M.ofExcept (validateRedirectUri code accessTokenRequest)
  deleteAuthorizationCode m code
  let data ← createToken m opts now freshAccess freshRefresh code client
  let model ← M.ofExcept (TokenModel.init data opts.allowExtendedTokenAttributes now)
  M.ofExcept (BearerToken.valueOf model.accessToken model.accessTokenLifetime
    model.refreshToken model.scope model.customAttributes)

end AuthorizationCodeGrant

/-! ## Refresh-token grant (src/lib/grants/refresh-token/refresh-token-grant.js) -/

namespace RefreshTokenGrant

/-- Modelled from the spec: the refresh-token flow's request parser
(`src/lib/grants/refresh-token/access-token-request.js` is required by the
grant but is not under `src/`).  §4.7.4 step 1: `refresh_token` (required,
VSCHAR) read from the request body. -/
def parseRefreshTokenRequest (request : Request) : Except Thrown String :=
  match lookupStr request.body "refresh_token" with
  | some s =>
      if s == "" then .error (Errors.invalidRequest "Missing parameter: `refresh_token`")
      else if !Is.vschar s then .error (Errors.invalidRequest "Invalid parameter: `refresh_token`")
      else .ok s
  | none => .error (Errors.invalidRequest "Missing parameter: `refresh_token`")

/-- `validateRefreshToken`: load the token from the Model and run the
contract and expiry checks in source order.  An absent
`refreshTokenExpiresAt` skips both the Date check and the expiry check. -/
def validateRefreshToken (m : Model) (now : Int) (refreshTokenParam : String) (client : JsVal) :
    M JsVal := do
  let token ← m.callGetRefreshToken refreshTokenParam
  if !token.truthy then
    M.throw (Errors.invalidGrant "Invalid grant: refresh token is invalid")
  if !(token.get "client").truthy then
    M.throw (Errors.serverError "Server error: `getRefreshToken()` did not return a `client` object")
  if !(token.get "user").truthy then
    M.throw (Errors.serverError "Server error: `getRefreshToken()` did not return a `user` object")
  if ((token.get "client").get "id") != (client.get "id") then
    M.throw (Errors.invalidGrant "Invalid grant: refresh token is invalid")
  if (token.get "refreshTokenExpiresAt").truthy && !isDate (token.get "refreshTokenExpiresAt") then
    M.throw (Errors.serverError "Server error: `refreshTokenExpiresAt` must be a Date instance")
  let _ ← (match token.get "refreshTokenExpiresAt" with
    | .date t =>
        if t < now then
          M.throw (Errors.invalidGrant "Invalid grant: refresh token has expired")
        else M.pure ()
    | _ => M.pure () : M Unit)
  M.pure token

/-- `deleteRefreshToken`: revoke the old refresh token via the Model unless
rotation is off; falsy revocation result → `invalid_grant`. -/
def deleteRefreshToken (m : Model) (opts : GrantOptions) (token : JsVal) : M Unit := do
  if !opts.alwaysIssueNewRefreshToken then
    M.pure ()
  else do
    let status ← m.callRevokeRefreshToken token
    if !status.truthy then
      M.throw (Errors.invalidGrant "Invalid grant: refresh token is invalid")

/-- `createToken(client, user, scope)`: mint the new token; the refresh
token and its expiry are included only when rotation is on. -/
def createToken (m : Model) (opts : GrantOptions) (now : Int) (freshAccess freshRefresh : String)
    (client user scope : JsVal) : M JsVal := do
  let accessToken := AbstractGrant.generateAccessToken m client user scope freshAccess
  let refreshToken := AbstractGrant.generateRefreshToken m client user scope freshRefresh
  let accessTokenExpiresAt := AbstractGrant.setAccessTokenExpiresAt opts now
  let refreshTokenExpiresAt := AbstractGrant.setRefreshTokenExpiresAt opts now
  let token := JsVal.obj
    [("accessToken", accessToken), ("accessTokenExpiresAt", accessTokenExpiresAt),
     ("scope", scope)]
  let token :=
    if opts.alwaysIssueNewRefreshToken then
      (token.set "refreshToken" refreshToken).set "refreshTokenExpiresAt" refreshTokenExpiresAt
    else token
  m.callSaveToken client user token

/-- `execute`: the refresh-token flow: validate, revoke the old token,
mint and persist the new one (scope and user copied from the old token). -/
def execute (m : Model) (opts : GrantOptions) (now : Int) (freshAccess freshRefresh : String)
    (request : Request) (client : JsVal) : M JsVal := do
  let refreshToken ← M.ofExcept (parseRefreshTokenRequest request)
  let token ← validateRefreshToken m now refreshToken client
  deleteRefreshToken m opts token
  let data ← createToken m opts now freshAccess freshRefresh client (token.get "user") (token.get "scope")
  let model ← M.ofExcept (TokenModel.init data opts.allowExtendedTokenAttributes now)
  M.ofExcept (BearerToken.valueOf model.accessToken model.accessTokenLifetime
    model.refreshToken model.scope model.customAttributes)

end RefreshTokenGrant

/-! ## Shared response-shaping helpers -/

namespace Errors

/-- `insufficient-scope` error class (src/unnamed/part_000): 403. -/
def insufficientScope (msg : String) : Thrown := .oauth ⟨"insufficient_scope", 403, msg⟩

end Errors

/-- `error.name`: the wire code of an engine error, or the JS class name of
a runtime exception. -/
def Thrown.errName : Thrown → String
  | .oauth e => e.name
  | .typeError _ => "TypeError"

/-- `error.message`. -/
def Thrown.errMessage : Thrown → String
  | .oauth e => e.message
  | .typeError m => m

/-- `if (!(error instanceof OAuthError)) error = new ServerError(error)`:
non-OAuth exceptions become `server_error` (500) keeping the message. -/
def wrapServerError : Thrown → OAuthErr
  | .oauth e => e
  | .typeError msg => ⟨"server_error", 500, msg⟩

/-- The `{error, error_description}` JSON body. -/
def errBody (error : Thrown) : JsVal :=
  .obj [("error", .str error.errName), ("error_description", .str error.errMessage)]

/-- Property read whose receiver may be `undefined`: JS throws `TypeError`
there, which the introspect/revoke handlers convert to `server_error` at the
response boundary. -/
def JsVal.getE (v : JsVal) (key : String) : Except Thrown JsVal :=
  match v with
  | .undef => .error (.typeError ("Cannot read property " ++ key ++ " of undefined"))
  | _ => .ok (v.get key)

/-- JS string coercion, for the values the engine writes into headers. The
`date` case abbreviates the JS date string. -/
def jsToString : JsVal → String
  | .str s => s
  | .undef => "undefined"
  | .bool b => if b then "true" else "false"
  | .num n => toString n
  | .date t => toString t
  | .obj _ => "[object Object]"

/-! ## Authorize response shaping
(src/unnamed/part_003 `CodeResponse`, src/lib/handlers/auhtorize/authorization-response.js)

`scope` and `state` reach `buildRedirectUri` as strings or `undefined`; the
embedding uses `""` for the absent/falsy case, matching the `if (scope)` /
`if (state)` truthiness tests. -/

namespace CodeResponse

/-- `buildRedirectUri(code, scope, uri, state)`: parse the requested
redirect URI, null its search string, then assign `code`, `scope` (if
truthy) and `state` (if truthy) into its parsed query object. -/
def buildRedirectUri (code scope uri state : String) : UrlObj :=
  let redirectUri := urlParse uri
  let redirectUri := { redirectUri with search := none }
  let redirectUri := { redirectUri with query := setParam redirectUri.query "code" code }
  let redirectUri :=
    if scope != "" then { redirectUri with query := setParam redirectUri.query "scope" scope }
    else redirectUri
  let redirectUri :=
    if state != "" then { redirectUri with query := setParam redirectUri.query "state" state }
    else redirectUri
  redirectUri

end CodeResponse

namespace AuthorizationResponse

/-- `setSuccessResponse`: `Location: url.format(redirectUri)`, status 302. -/
def setSuccessResponse (redirectUri : UrlObj) (resp : Resp) : Resp :=
  (resp.setHeader "Location" (urlFormat redirectUri)).setStatus 302

/-- `setErrorResponse(error, uri)`: `invalid_client` and
`unauthorized_request` answer 401 with a JSON body and no redirect; every
other error takes the redirect branch, starting from the parsed `uri` when
one was supplied and from a bare `{query: {}}` object otherwise. -/
def setErrorResponse (error : Thrown) (uri : Option String) (resp : Resp) : Resp :=
  if error.errName == "invalid_client" || error.errName == "unauthorized_request" then
    (resp.setBody (errBody error)).setStatus 401
  else
    let redirectUri :=
      if optTruthy uri then urlParse (uri.getD "") else UrlObj.empty
    let redirectUri :=
      { redirectUri with query := setParam redirectUri.query "error" error.errName }
    let redirectUri :=
      if error.errMessage != "" then
        { redirectUri with query := setParam redirectUri.query "error_description" error.errMessage }
      else redirectUri
    (((resp.setHeader "Location" (urlFormat redirectUri)).setStatus 302).setBody (errBody error))

end AuthorizationResponse

/-! ## Bearer authenticate endpoint (src/lib/handlers/authenticate) -/

/-- JS `\s` on the characters in play. -/
def isSpace (c : Char) : Bool :=
  c == ' ' || c == '\t' || c == '\n' || c == '\r' || c == '\x0b' || c == '\x0c'

/-- The unanchored search `bearerToken.match(/Bearer\s(\S+)/)`: the first
occurrence of `Bearer`, one whitespace character, then a non-empty maximal
run of non-whitespace characters, which is the captured token. -/
def bearerMatch (s : String) : Option String :=
  goBearer s.toList
where
  takeNonSpace : List Char → List Char
  | [] => []
  | c :: r => if isSpace c then [] else c :: takeNonSpace r
  goBearer : List Char → Option String
  | [] => none
  | c :: rest =>
      match c :: rest with
      | 'B' :: 'e' :: 'a' :: 'r' :: 'e' :: 'r' :: w :: tail =>
          if isSpace w then
            let tok := takeNonSpace tail
            if tok.isEmpty then goBearer rest else some (String.mk tok)
          else goBearer rest
      | _ => goBearer rest

namespace AuthenticateRequest

/-- The `AuthenticateRequest` constructor: locate the bearer token among the
`Authorization` header, the `access_token` query parameter and the
`access_token` body field.  Zero truthy sources → `unauthorized_request`;
more than one → `invalid_request`; then the per-source admissibility checks
in source order.  Exactly one branch assigns the token, so the returned
string is always the located token. -/
def init (request : Request) (allowBearerTokensInQueryString : Bool) : Except Thrown String := do
  let headerToken := request.get "Authorization"
  let queryToken := lookupStr request.query "access_token"
  let bodyToken := lookupStr request.body "access_token"
  if !(optTruthy headerToken || optTruthy queryToken || optTruthy bodyToken) then
    throw (Errors.unauthorizedRequest "Unauthorized request: no authentication given")
  if ((if optTruthy headerToken then 1 else 0) + (if optTruthy queryToken then 1 else 0)
      + (if optTruthy bodyToken then 1 else 0) : Nat) > 1 then
    throw (Errors.invalidRequest "Invalid request: only one authentication method is allowed")
  let mut token : String := ""
  if optTruthy headerToken then
    match bearerMatch (headerToken.getD "") with
    | some matched => token := matched
    | none => throw (Errors.invalidRequest "Invalid request: malformed authorization header")
  if optTruthy queryToken then
    if !allowBearerTokensInQueryString then
      throw (Errors.invalidRequest "Invalid request: do not send bearer tokens in query URLs")
    token := queryToken.getD ""
  if optTruthy bodyToken then
    if request.method == "GET" then
      throw (Errors.invalidRequest "Invalid request: token may not be passed in the body when using the GET verb")
    if !request.formUrlEncoded then
      throw (Errors.invalidRequest "Invalid request: content must be application/x-www-form-urlencoded")
    token := bodyToken.getD ""
  return token

end AuthenticateRequest

/-- Option record of the bearer authenticate endpoint. -/
structure AuthenticateOptions where
  scope : Option String
  addAcceptedScopesHeader : Bool
  addAuthorizedScopesHeader : Bool
  allowBearerTokensInQueryString : Bool
deriving Repr, DecidableEq

namespace AuthenticateResponse

/-- `setSuccessResponse`: optional scope headers. -/
def setSuccessResponse (token : JsVal) (opts : AuthenticateOptions) (response : Resp) : Resp :=
  let response :=
    if optTruthy opts.scope && opts.addAcceptedScopesHeader then
      response.setHeader "X-Accepted-OAuth-Scopes" (opts.scope.getD "")
    else response
  if optTruthy opts.scope && opts.addAuthorizedScopesHeader then
    response.setHeader "X-OAuth-Scopes" (jsToString (token.get "scope"))
  else response

/-- `setErrorResponse`: `WWW-Authenticate` challenge on
`unauthorized_request`, wrap non-OAuth errors, then body and status. -/
def setErrorResponse (error : Thrown) (response : Resp) : Resp :=
  let response :=
    if error.errName == "unauthorized_request" then
      response.setHeader "WWW-Authenticate" "Bearer realm=\"Service\""
    else response
  let wrapped := wrapServerError error
  (response.setBody
    (.obj [("error", .str wrapped.name), ("error_description", .str wrapped.message)])).setStatus
    wrapped.status

end AuthenticateResponse

namespace AuthenticateHandler

/-- `validateAccessToken`: load the token record and run the contract and
expiry checks in source order. -/
def validateAccessToken (m : Model) (now : Int) (token : String) : M JsVal := do
  let accessToken ← m.callGetAccessToken token
  if !accessToken.truthy then
    M.throw (Errors.invalidToken "Invalid token: access token is invalid")
  if !(accessToken.get "user").truthy then
    M.throw (Errors.serverError "Server error: `getAccessToken()` did not return a `user` object")
  let _ ← (match accessToken.get "accessTokenExpiresAt" with
    | .date t =>
        if t < now then
          M.throw (Errors.invalidToken "Invalid token: access token has expired")
        else M.pure ()
    | _ => M.throw (Errors.serverError "Server error: `accessTokenExpiresAt` must be a Date instance") : M Unit)
  M.pure accessToken

/-- `verifyAccessTokenScope` (invoked only when the endpoint has a
configured scope): `Model.verifyScope`, falsy → `insufficient_scope`. -/
def verifyAccessTokenScope (m : Model) (authScope : String) (accessToken : JsVal) : M JsVal :=
  let scope := m.verifyScope accessToken (.str authScope)
  if !scope.truthy then
    M.throw (Errors.insufficientScope "Insufficient scope: authorized scope is insufficient")
  else M.pure scope

/-- The try-block of `execute`: parse, validate, optionally verify scope,
and produce the access-token record. -/
def executeBody (m : Model) (opts : AuthenticateOptions) (now : Int) (request : Request) :
    M JsVal := do
  let token ← M.ofExcept (AuthenticateRequest.init request opts.allowBearerTokensInQueryString)
  let accessToken ← validateAccessToken m now token
  if optTruthy opts.scope then
    let _ ← verifyAccessTokenScope m (opts.scope.getD "") accessToken
  M.pure accessToken

/-- `execute`: on success shape the scope headers and return
`accessToken.user`; on error shape the error response and re-raise. -/
def execute (m : Model) (opts : AuthenticateOptions) (now : Int) (request : Request)
    (response : Resp) : Except Thrown JsVal × List MEvent × Resp :=
  match (executeBody m opts now request).run with
  | (.ok accessToken, tr) =>
      (.ok (accessToken.get "user"), tr, AuthenticateResponse.setSuccessResponse accessToken opts response)
  | (.error e, tr) => (.error e, tr, AuthenticateResponse.setErrorResponse e response)

end AuthenticateHandler

/-! ## Introspect endpoint (src/lib/handlers/introspect)

`execute` is embedded from its post-parse stage: the `IntrospectRequest`
value (`token`, `token_hint`, client credentials) is taken as input, since
the verified properties quantify over requests that passed parsing. -/

namespace IntrospectHandler

/-- `authenticateClient`: `Model.getClient(id, secret)`, falsy →
`invalid_client`. -/
def authenticateClient (m : Model) (clientId clientSecret : Option String) : M JsVal := do
  let client ← m.callGetClient clientId clientSecret
  if !client.truthy then
    M.throw (Errors.invalidClient "Invalid client: client is invalid")
  M.pure client

/-- `verifyToken`: load per hint, then
`(token && token.client.id === client.id) ? token : false`; the
`token.client.id` read throws when the loaded record has no `client`. -/
def verifyToken (m : Model) (tokenParam tokenHint : String) (client : JsVal) : M JsVal := do
  let token ←
    if tokenHint == "access_token" then m.callGetAccessToken tokenParam
    else m.callGetRefreshToken tokenParam
  if !token.truthy then
    M.pure (.bool false)
  else do
    let cid ← M.ofExcept ((token.get "client").getE "id")
    M.pure (if cid == client.get "id" then token else .bool false)

/-- `composeIntrospectResult`: not verified → `{active: false}`; then
`hasExpired = now > expiresAt` where the `expiresAt.getTime()` call throws
when the hint-selected expiry field is not a `Date`; expired →
`{active: false}`; else the active metadata object, whose field reads
`token.client.id` and `token.user.username` can themselves throw. -/
def composeIntrospectResult (now : Int) (tokenHint : String) (token : JsVal) :
    Except Thrown JsVal := do
  if !token.truthy then
    return .obj [("active", .bool false)]
  else
    let expiresAt :=
      if tokenHint == "access_token" then token.get "accessTokenExpiresAt"
      else token.get "refreshTokenExpiresAt"
    match expiresAt with
    | .date t =>
        if now > t then
          return .obj [("active", .bool false)]
        else do
          let clientId ← (token.get "client").getE "id"
          let username ← (token.get "user").getE "username"
          return .obj
            [("active", .bool true), ("client_id", clientId), ("username", username),
             ("scope", token.get "scope"), ("expires_at", expiresAt)]
    | _ => throw (.typeError "expiresAt.getTime is not a function")

/-- The try-block of `execute` after parsing. -/
def executeBody (m : Model) (now : Int) (tokenParam tokenHint : String)
    (clientId clientSecret : Option String) : M JsVal := do
  let client ← authenticateClient m clientId clientSecret
  let token ← verifyToken m tokenParam tokenHint client
  M.ofExcept (composeIntrospectResult now tokenHint token)

end IntrospectHandler

namespace IntrospectResponse

/-- `setSuccessResponse`: no-store headers plus the result body. -/
def setSuccessResponse (body : JsVal) (resp : Resp) : Resp :=
  (((resp.setHeader "Cache-Control" "no-store").setHeader "Pragma" "no-cache").setBody body)

/-- `setErrorResponse`: Basic challenge for `invalid_client` with an
`Authorization` header, otherwise wrap non-OAuth errors and answer with the
wrapped body and status. -/
def setErrorResponse (error : Thrown) (isAuthorizationHeader : Bool) (resp : Resp) : Resp :=
  if error.errName == "invalid_client" && isAuthorizationHeader then
    (((resp.setHeader "WWW-Authenticate" "Basic realm=\"Service\"").setBody (errBody error)).setStatus 401)
  else
    let wrapped := wrapServerError error
    ((resp.setBody (.obj [("error", .str wrapped.name), ("error_description", .str wrapped.message)])).setStatus wrapped.status)

end IntrospectResponse

/-- `IntrospectHandler.execute` from its post-parse stage: run the body,
then shape success or error (the latter re-raising). -/
def IntrospectHandler.execute (m : Model) (now : Int) (tokenParam tokenHint : String)
    (clientId clientSecret : Option String) (isAuthorizationHeader : Bool) (response : Resp) :
    Except Thrown Unit × List MEvent × Resp :=
  match (IntrospectHandler.executeBody m now tokenParam tokenHint clientId clientSecret).run with
  | (.ok result, tr) => (.ok (), tr, IntrospectResponse.setSuccessResponse result response)
  | (.error e, tr) => (.error e, tr, IntrospectResponse.setErrorResponse e isAuthorizationHeader response)

/-! ## Revoke endpoint (src/lib/handlers/revoke)

As with Introspect, `execute` is embedded from its post-parse stage.
`RevokeRequest` shares the Introspect request structure. -/

namespace RevokeHandler

/-- `authenticateClient`: identical to the introspect handler's. -/
def authenticateClient (m : Model) (clientId clientSecret : Option String) : M JsVal := do
  let client ← m.callGetClient clientId clientSecret
  if !client.truthy then
    M.throw (Errors.invalidClient "Invalid client: client is invalid")
  M.pure client

/-- `verifyToken`: load per hint, keep the token only when it was issued to
the authenticated client. -/
def verifyToken (m : Model) (tokenParam tokenHint : String) (client : JsVal) : M JsVal := do
  let token ←
    if tokenHint == "access_token" then m.callGetAccessToken tokenParam
    else m.callGetRefreshToken tokenParam
  if !token.truthy then
    M.pure (.bool false)
  else do
    let cid ← M.ofExcept ((token.get "client").getE "id")
    M.pure (if cid == client.get "id" then token else .bool false)

/-- `invalidateToken`: revoke via the capability matching the hint. -/
def invalidateToken (m : Model) (tokenHint : String) (token : JsVal) : M JsVal :=
  if tokenHint == "access_token" then m.callRevokeAccessToken token
  else m.callRevokeRefreshToken token

/-- The try-block of `execute` after parsing: the token is invalidated only
when `verifyToken` kept it. -/
def executeBody (m : Model) (tokenParam tokenHint : String)
    (clientId clientSecret : Option String) : M Unit := do
  let client ← authenticateClient m clientId clientSecret
  let token ← verifyToken m tokenParam tokenHint client
  if token.truthy then
    let _ ← invalidateToken m tokenHint token
  M.pure ()

end RevokeHandler

namespace RevokeResponse

/-- Modelled from the spec: `RevokeResponse.setSuccessResponse`
(`revoke-response.js` is required by the revoke handler but is not under
`src/`).  §4.10: on success "ALWAYS return a 200 success with empty body". -/
def setSuccessResponse (resp : Resp) : Resp :=
  (resp.setBody (.obj [])).setStatus 200

/-- Modelled from the spec: `RevokeResponse.setErrorResponse`, with the same
shape as the introspect error response (§4.10: "Errors in
parsing/authentication still propagate (400/401 JSON)", §4.6 challenge
rule). -/
def setErrorResponse (error : Thrown) (isAuthorizationHeader : Bool) (resp : Resp) : Resp :=
  IntrospectResponse.setErrorResponse error isAuthorizationHeader resp

end RevokeResponse

/-- `RevokeHandler.execute` from its post-parse stage. -/
def RevokeHandler.execute (m : Model) (tokenParam tokenHint : String)
    (clientId clientSecret : Option String) (isAuthorizationHeader : Bool) (response : Resp) :
    Except Thrown Unit × List MEvent × Resp :=
  match (RevokeHandler.executeBody m tokenParam tokenHint clientId clientSecret).run with
  | (.ok _, tr) => (.ok (), tr, RevokeResponse.setSuccessResponse response)
  | (.error e, tr) => (.error e, tr, RevokeResponse.setErrorResponse e isAuthorizationHeader response)

/-! ## Concrete fixtures for witnesses and counterexamples -/

/-- A Model whose every capability is inert; concrete scenarios override the
capabilities they exercise. -/
def stubModel : Model :=
  { getClient := fun _ _ => .undef
    getAuthorizationCode := fun _ => .undef
    revokeAuthorizationCode := fun _ => .undef
    getRefreshToken := fun _ => .undef
    revokeRefreshToken := fun _ => .undef
    getAccessToken := fun _ => .undef
    revokeAccessToken := fun _ => .undef
    saveToken := fun _ _ _ => .undef
    validateScope := none
    generateAccessToken := none
    generateRefreshToken := none
    verifyScope := fun _ _ => .undef }

def clientWithId (cid : String) : JsVal := .obj [("id", .str cid)]

/-- An authorization-code record of the shape the Model returns: bound to
client `cid`, user `uV`, scope `sV`, expiring at `t`. -/
def codeWithExpiry (cid uV sV : String) (t : Int) : JsVal :=
  .obj [("client", .obj [("id", .str cid)]), ("user", .obj [("username", .str uV)]),
        ("scope", .str sV), ("expiresAt", .date t)]

/-- A refresh-token record without `refreshTokenExpiresAt`. -/
def refreshTokenNoExpiry (cid uV sV rt : String) : JsVal :=
  .obj [("refreshToken", .str rt), ("client", .obj [("id", .str cid)]),
        ("user", .obj [("username", .str uV)]), ("scope", .str sV)]

/-- A refresh-token record with `refreshTokenExpiresAt = t`. -/
def refreshTokenWithExpiry (cid uV sV rt : String) (t : Int) : JsVal :=
  .obj [("refreshToken", .str rt), ("client", .obj [("id", .str cid)]),
        ("user", .obj [("username", .str uV)]), ("scope", .str sV),
        ("refreshTokenExpiresAt", .date t)]

/-- An access-token record with `accessTokenExpiresAt = t`. -/
def accessTokenWithExpiry (cid uV sV : String) (t : Int) : JsVal :=
  .obj [("client", .obj [("id", .str cid)]), ("user", .obj [("username", .str uV)]),
        ("scope", .str sV), ("accessTokenExpiresAt", .date t)]

/-- A token record carrying neither expiry instant. -/
def tokenSansExpiry (cid uV sV : String) : JsVal :=
  .obj [("client", .obj [("id", .str cid)]), ("user", .obj [("username", .str uV)]),
        ("scope", .str sV)]

/-- A token record with `accessTokenExpiresAt` but no
`refreshTokenExpiresAt`: under the `refresh_token` hint the selected expiry
instant is absent even though the other one is present. -/
def tokenAccessExpiryOnly (cid uV sV : String) (t : Int) : JsVal :=
  .obj [("client", .obj [("id", .str cid)]), ("user", .obj [("username", .str uV)]),
        ("scope", .str sV), ("accessTokenExpiresAt", .date t)]

/-- The token-endpoint option defaults. -/
def tokenOptions : GrantOptions := ⟨1800, 86400, true, false⟩

def clientC1 : JsVal := clientWithId "c1"

/-- The code record loaded during the C1/C6 concrete redemption. -/
def codeRecC1 : JsVal :=
  .obj [("authorizationCode", .str "K"), ("client", .obj [("id", .str "c1")]),
        ("user", .str "alice"), ("scope", .str "read"), ("expiresAt", .date 2000)]

/-- The record the Model returns from `saveToken` in the concrete runs. -/
def savedRecC1 : JsVal :=
  .obj [("accessToken", .str "AT"), ("client", .obj [("id", .str "c1")]), ("user", .str "alice")]

/-- The token record `createToken` hands to `saveToken` in the concrete
redemption: with the swapped call, `user` and `scope` are destructured from
the authenticated client, which has neither, so `scope` is `undefined`. -/
def savedTokenInputC1 : JsVal :=
  .obj [("accessToken", .str "AT"), ("accessTokenExpiresAt", .date 1801000),
        ("refreshToken", .str "RT"), ("refreshTokenExpiresAt", .date 86401000),
        ("scope", .undef)]

def modelC1 : Model :=
  { stubModel with
    getAuthorizationCode := fun _ => codeRecC1
    revokeAuthorizationCode := fun _ => .bool true
    saveToken := fun _ _ _ => savedRecC1 }

def requestC1 : Request := ⟨"POST", [], [], [("code", "K"), ("redirect_uri", "https://app/cb")], true⟩

/-- The refresh-token record without expiry used against claim C2. -/
def tokRecC2 : JsVal := refreshTokenNoExpiry "c1" "alice" "read" "R1"

def modelC2 : Model :=
  { stubModel with
    getRefreshToken := fun _ => tokRecC2
    revokeRefreshToken := fun _ => .bool true
    saveToken := fun _ _ _ => savedRecC1 }

def requestC2 : Request := ⟨"POST", [], [], [("refresh_token", "R1")], true⟩

/-- Bearer-authenticate request presenting no credentials at all. -/
def requestC7none : Request := ⟨"GET", [], [], [], false⟩

/-- Bearer-authenticate request presenting the token in both the header and
the query string. -/
def requestC7both : Request :=
  ⟨"GET", [("authorization", "Bearer abc")], [("access_token", "xyz")], [], false⟩

def authOptions : AuthenticateOptions := ⟨none, true, true, false⟩

/-- Revoke scenario: valid client, unknown token. -/
def modelC8 : Model := { stubModel with getClient := fun _ _ => clientC1 }

/-- Introspect scenario: valid client; access token bound to it but with no
`accessTokenExpiresAt` on the record. -/
def tokRecC10 : JsVal := tokenSansExpiry "c1" "alice" "read"

/-- Introspect scenario for both hints: the access-token record lacks
`accessTokenExpiresAt`; the refresh-token record has an access expiry but
lacks `refreshTokenExpiresAt`. -/
def modelC10 : Model :=
  { stubModel with
    getClient := fun _ _ => clientC1
    getAccessToken := fun _ => tokRecC10
    getRefreshToken := fun _ => tokenAccessExpiryOnly "c1" "alice" "read" 2000 }

/-! ## Helper lemmas -/

theorem M.bind_def {α β : Type} (x : M α) (f : α → M β) (tr : List MEvent) :
    (x >>= f) tr = match x tr with
      | (.ok a, tr2) => f a tr2
      | (.error e, tr2) => (.error e, tr2) := rfl

theorem M.ofExcept_def {α : Type} (e : Except Thrown α) (tr : List MEvent) :
    M.ofExcept e tr = (e, tr) := rfl

theorem JsVal.beq_str (a b : String) : (JsVal.str a == JsVal.str b) = (a == b) := rfl

theorem lookupStr_setParam_self (l : List (String × String)) (k v : String) :
    lookupStr (setParam l k v) k = some v := by
  induction l with
  | nil => simp [setParam, lookupStr]
  | cons kv r ih =>
    by_cases h : kv.1 = k
    · simp [setParam, lookupStr, h]
    · simp [setParam, lookupStr, h, ih]

theorem lookupStr_setParam_ne (l : List (String × String)) (k v k2 : String) (h : k2 ≠ k) :
    lookupStr (setParam l k v) k2 = lookupStr l k2 := by
  have h2 : k ≠ k2 := fun hh => h hh.symm
  induction l with
  | nil => simp [setParam, lookupStr, h2]
  | cons kv r ih =>
    by_cases h1 : kv.1 = k
    · by_cases hx : kv.1 = k2 <;> simp_all [setParam, lookupStr]
    · by_cases hx : kv.1 = k2 <;> simp_all [setParam, lookupStr]

/-! ## C9 — the NCHAR validator -/

/-- C9: the claim states `nchar` accepts exactly the non-empty strings over
word characters and `-` `.` `_`, rejecting for instance `"|"`.  The source
regex `Rules.NCHAR` writes `|` separators inside its character class, where
they are literal, so `nchar "|"` is `true`: the claim fails on the code.
This theorem evaluates the embedded validator at the failing input (and at
inputs where the claim and the code agree). -/
theorem c9_nchar_accepts_pipe :
    Is.nchar "|" = true ∧ Is.nchar "a|b" = true ∧ Is.nchar "" = false ∧
      Is.nchar "Az0-._" = true ∧ Is.nchar "a b" = false := by
  decide

/-! ## C3 — authorization-code success redirect -/

/-- C3 counterexample: for the redirect URI `https://app/cb?foo=1` the claim
says the pre-existing parameter `foo` is cleared from the success redirect;
the code only nulls the `search` string, so `url.format` re-serializes the
parsed query object, which still contains `foo`. -/
theorem c3_counterexample_foo_survives :
    urlFormat (CodeResponse.buildRedirectUri "abc" "read" "https://app/cb?foo=1" "xyz") =
      "https://app/cb?foo=1&code=abc&scope=read&state=xyz" := by decide

/-- C3 amended: the success redirect is built from the requested
`redirect_uri` with its search string nulled, so the redirect query is the
original parsed query object with `code`, then `scope` (if present), then
`state` (if present) assigned into it; pre-existing parameters under other
names are preserved, not cleared. -/
theorem c3_amended_query_merge (code scope uri state : String) :
    (CodeResponse.buildRedirectUri code scope uri state).search = none ∧
    (CodeResponse.buildRedirectUri code scope uri state).base = (urlParse uri).base ∧
    (CodeResponse.buildRedirectUri code scope uri state).hash = (urlParse uri).hash ∧
    lookupStr (CodeResponse.buildRedirectUri code scope uri state).query "code" = some code ∧
    (scope ≠ "" →
      lookupStr (CodeResponse.buildRedirectUri code scope uri state).query "scope" = some scope) ∧
    (state ≠ "" →
      lookupStr (CodeResponse.buildRedirectUri code scope uri state).query "state" = some state) ∧
    (∀ k, k ≠ "code" → k ≠ "scope" → k ≠ "state" →
      lookupStr (CodeResponse.buildRedirectUri code scope uri state).query k =
        lookupStr (urlParse uri).query k) := by
  unfold CodeResponse.buildRedirectUri
  by_cases hs : scope = "" <;> by_cases hst : state = "" <;>
    simp [hs, hst, lookupStr_setParam_self, lookupStr_setParam_ne] <;>
    intro k h1 h2 h3 <;>
    simp [lookupStr_setParam_ne _ _ _ _ h1, lookupStr_setParam_ne _ _ _ _ h2,
      lookupStr_setParam_ne _ _ _ _ h3]

/-- C3 witness: the amended statement at the concrete redirect URI
`https://app/cb?foo=1` — `scope` is set and `foo` is preserved. -/
theorem c3_amended_query_merge_witness :
    lookupStr (CodeResponse.buildRedirectUri "abc" "read" "https://app/cb?foo=1" "xyz").query
        "scope" = some "read" ∧
    lookupStr (CodeResponse.buildRedirectUri "abc" "read" "https://app/cb?foo=1" "xyz").query
        "foo" = lookupStr (urlParse "https://app/cb?foo=1").query "foo" :=
  ⟨(c3_amended_query_merge "abc" "read" "https://app/cb?foo=1" "xyz").2.2.2.2.1 (by decide),
   (c3_amended_query_merge "abc" "read" "https://app/cb?foo=1" "xyz").2.2.2.2.2.2 "foo"
     (by decide) (by decide) (by decide)⟩

/-! ## C4 — authorize error shaping without a redirect URI -/

/-- C4: the claim says that when no redirect URI is known, only the body and
status are set — no `Location` header and no 302.  Evaluating the embedded
`setErrorResponse` at a non-client error (`invalid_scope`) with no URI shows
the code still takes the redirect branch: it formats the bare
`{query: {error, error_description}}` object into a relative `?error=…` URL,
sets it as `Location`, and sets status 302. -/
theorem c4_no_uri_still_redirects :
    (AuthorizationResponse.setErrorResponse
        (Errors.invalidScope "Invalid scope: Requested scope is invalid") none Resp.init).status =
        302 ∧
    (AuthorizationResponse.setErrorResponse
        (Errors.invalidScope "Invalid scope: Requested scope is invalid") none
        Resp.init).getHeader "Location" =
      some "?error=invalid_scope&error_description=Invalid scope: Requested scope is invalid" ∧
    (AuthorizationResponse.setErrorResponse
        (Errors.invalidScope "Invalid scope: Requested scope is invalid") none Resp.init).body =
      .obj [("error", .str "invalid_scope"),
            ("error_description", .str "Invalid scope: Requested scope is invalid")] :=
  ⟨rfl, rfl, rfl⟩

/-! ## C5 — expiry comparisons at the boundary -/

/-- C5 counterexample: a credential whose expiry equals the current instant
(`t = now = 1000`) is accepted at all four comparison sites — the claim that
equality is treated as expired fails on the code, which compares strictly. -/
theorem c5_counterexample_equal_instant_accepted :
    (AuthorizationCodeGrant.validateAuthorizationCode
        { stubModel with getAuthorizationCode := fun _ => codeWithExpiry "c1" "alice" "read" 1000 }
        1000 ⟨"K", "https://app/cb"⟩ (clientWithId "c1")).run =
      (.ok (codeWithExpiry "c1" "alice" "read" 1000), [.getAuthorizationCode "K"]) ∧
    (AuthenticateHandler.validateAccessToken
        { stubModel with getAccessToken := fun _ => accessTokenWithExpiry "c1" "alice" "read" 1000 }
        1000 "AT").run =
      (.ok (accessTokenWithExpiry "c1" "alice" "read" 1000), [.getAccessToken "AT"]) ∧
    (RefreshTokenGrant.validateRefreshToken
        { stubModel with
          getRefreshToken := fun _ => refreshTokenWithExpiry "c1" "alice" "read" "R1" 1000 }
        1000 "R1" (clientWithId "c1")).run =
      (.ok (refreshTokenWithExpiry "c1" "alice" "read" "R1" 1000), [.getRefreshToken "R1"]) ∧
    IntrospectHandler.composeIntrospectResult 1000 "access_token"
        (accessTokenWithExpiry "c1" "alice" "read" 1000) =
      .ok (.obj [("active", .bool true), ("client_id", .str "c1"), ("username", .str "alice"),
                 ("scope", .str "read"), ("expires_at", .date 1000)]) :=
  ⟨rfl, rfl, rfl, rfl⟩

/-- C5 amended: at each of the four expiry comparison sites a credential is
treated as expired exactly when its expiry instant is strictly before the
current time; an expiry equal to `now` is accepted. -/
theorem c5_amended_strictly_past_is_expired :
    (∀ (m : Model) (now t : Int) (p ru cid uV sV : String),
      m.getAuthorizationCode p = codeWithExpiry cid uV sV t →
      (AuthorizationCodeGrant.validateAuthorizationCode m now ⟨p, ru⟩ (clientWithId cid)).run =
        ((if t < now then
            .error (Errors.invalidGrant "Invalid grant: authorization code has expired")
          else .ok (codeWithExpiry cid uV sV t)), [.getAuthorizationCode p])) ∧
    (∀ (m : Model) (now t : Int) (tk cid uV sV : String),
      m.getAccessToken tk = accessTokenWithExpiry cid uV sV t →
      (AuthenticateHandler.validateAccessToken m now tk).run =
        ((if t < now then .error (Errors.invalidToken "Invalid token: access token has expired")
          else .ok (accessTokenWithExpiry cid uV sV t)), [.getAccessToken tk])) ∧
    (∀ (m : Model) (now t : Int) (p cid uV sV rt : String),
      m.getRefreshToken p = refreshTokenWithExpiry cid uV sV rt t →
      (RefreshTokenGrant.validateRefreshToken m now p (clientWithId cid)).run =
        ((if t < now then .error (Errors.invalidGrant "Invalid grant: refresh token has expired")
          else .ok (refreshTokenWithExpiry cid uV sV rt t)), [.getRefreshToken p])) ∧
    (∀ (now t : Int) (cid uV sV : String),
      IntrospectHandler.composeIntrospectResult now "access_token"
          (accessTokenWithExpiry cid uV sV t) =
        .ok (if t < now then .obj [("active", .bool false)]
             else .obj [("active", .bool true), ("client_id", .str cid), ("username", .str uV),
                        ("scope", .str sV), ("expires_at", .date t)])) := by
  refine ⟨?_, ?_, ?_, ?_⟩
  · intro m now t p ru cid uV sV h
    by_cases ht : t < now <;>
      simp [AuthorizationCodeGrant.validateAuthorizationCode, Model.callGetAuthorizationCode,
        M.run, M.call, Bind.bind, M.bind, Pure.pure, M.pure, M.throw, h, codeWithExpiry,
        clientWithId, JsVal.truthy, JsVal.get, JsVal.get.goGet, bne, JsVal.beq_str, isDate,
        Is.uriVal, ht]
  · intro m now t tk cid uV sV h
    by_cases ht : t < now <;>
      simp [AuthenticateHandler.validateAccessToken, Model.callGetAccessToken, M.run, M.call,
        Bind.bind, M.bind, Pure.pure, M.pure, M.throw, h, accessTokenWithExpiry, JsVal.truthy,
        JsVal.get, JsVal.get.goGet, isDate, ht]
  · intro m now t p cid uV sV rt h
    by_cases ht : t < now <;>
      simp [RefreshTokenGrant.validateRefreshToken, Model.callGetRefreshToken, M.run, M.call,
        Bind.bind, M.bind, Pure.pure, M.pure, M.throw, h, refreshTokenWithExpiry, clientWithId,
        JsVal.truthy, JsVal.get, JsVal.get.goGet, bne, JsVal.beq_str, isDate, ht]
  · intro now t cid uV sV
    by_cases ht : t < now <;>
      simp [IntrospectHandler.composeIntrospectResult, accessTokenWithExpiry, JsVal.truthy,
        JsVal.get, JsVal.get.goGet, JsVal.getE, Bind.bind, Except.bind, ht, Pure.pure,
        Except.pure]

/-- C5 witness: the amended statement applied at `now = 1000` with an expiry
strictly in the past (`t = 500`, rejected) and at the boundary instant
(covered by the counterexample theorem). -/
theorem c5_amended_strictly_past_is_expired_witness :
    (AuthorizationCodeGrant.validateAuthorizationCode
        { stubModel with getAuthorizationCode := fun _ => codeWithExpiry "c1" "alice" "read" 500 }
        1000 ⟨"K", "https://app/cb"⟩ (clientWithId "c1")).run =
      (.error (Errors.invalidGrant "Invalid grant: authorization code has expired"),
       [.getAuthorizationCode "K"]) := by
  have h := c5_amended_strictly_past_is_expired.1
    { stubModel with getAuthorizationCode := fun _ => codeWithExpiry "c1" "alice" "read" 500 }
    1000 500 "K" "https://app/cb" "c1" "alice" "read" rfl
  simpa using h

/-! ## C2 — refresh-token expiry validation -/

/-- C2 counterexample: a refresh-token exchange whose loaded record has no
`refreshTokenExpiresAt` does not fail with `invalid_grant` — the whole grant
succeeds and returns a Bearer body, because the source guards the expiry
check behind `token.refreshTokenExpiresAt &&`.  The claim holds only for the
present-and-expired half. -/
theorem c2_counterexample_absent_expiry_accepted :
    (RefreshTokenGrant.execute modelC2 tokenOptions 1000 "AT" "RT" requestC2 clientC1).run =
      (.ok (.obj [("access_token", .str "AT"), ("token_type", .str "Bearer")]),
       [.getRefreshToken "R1",
        .revokeRefreshToken tokRecC2,
        .saveToken (.obj [("id", .str "c1")]) (.obj [("username", .str "alice")])
          (.obj [("accessToken", .str "AT"), ("accessTokenExpiresAt", .date 1801000),
                 ("scope", .str "read"), ("refreshToken", .str "RT"),
                 ("refreshTokenExpiresAt", .date 86401000)])]) := rfl

/-- C2 amended: a loaded refresh-token record with `refreshTokenExpiresAt`
present (a Date) and strictly in the past fails with `invalid_grant`; a
record with `refreshTokenExpiresAt` absent passes the expiry validation and
is treated as non-expiring. -/
theorem c2_amended_absent_expiry_passes :
    (∀ (m : Model) (now : Int) (p cid uV sV rt : String),
      m.getRefreshToken p = refreshTokenNoExpiry cid uV sV rt →
      (RefreshTokenGrant.validateRefreshToken m now p (clientWithId cid)).run =
        (.ok (refreshTokenNoExpiry cid uV sV rt), [.getRefreshToken p])) ∧
    (∀ (m : Model) (now t : Int) (p cid uV sV rt : String),
      t < now →
      m.getRefreshToken p = refreshTokenWithExpiry cid uV sV rt t →
      (RefreshTokenGrant.validateRefreshToken m now p (clientWithId cid)).run =
        (.error (Errors.invalidGrant "Invalid grant: refresh token has expired"),
         [.getRefreshToken p])) := by
  constructor
  · intro m now p cid uV sV rt h
    simp [RefreshTokenGrant.validateRefreshToken, Model.callGetRefreshToken, M.run, M.call,
      Bind.bind, M.bind, Pure.pure, M.pure, M.throw, h, refreshTokenNoExpiry, clientWithId,
      JsVal.truthy, JsVal.get, JsVal.get.goGet, bne, JsVal.beq_str, isDate]
  · intro m now t p cid uV sV rt ht h
    simp [RefreshTokenGrant.validateRefreshToken, Model.callGetRefreshToken, M.run, M.call,
      Bind.bind, M.bind, Pure.pure, M.pure, M.throw, h, refreshTokenWithExpiry, clientWithId,
      JsVal.truthy, JsVal.get, JsVal.get.goGet, bne, JsVal.beq_str, isDate, ht]

/-- C2 witness: the amended statement at a concrete Model for both halves. -/
theorem c2_amended_absent_expiry_passes_witness :
    (RefreshTokenGrant.validateRefreshToken modelC2 1000 "R1" (clientWithId "c1")).run =
      (.ok (refreshTokenNoExpiry "c1" "alice" "read" "R1"), [.getRefreshToken "R1"]) ∧
    (RefreshTokenGrant.validateRefreshToken
        { stubModel with
          getRefreshToken := fun _ => refreshTokenWithExpiry "c1" "alice" "read" "R1" 500 }
        1000 "R1" (clientWithId "c1")).run =
      (.error (Errors.invalidGrant "Invalid grant: refresh token has expired"),
       [.getRefreshToken "R1"]) :=
  ⟨c2_amended_absent_expiry_passes.1 modelC2 1000 "R1" "c1" "alice" "read" "R1" rfl,
   c2_amended_absent_expiry_passes.2
     { stubModel with
       getRefreshToken := fun _ => refreshTokenWithExpiry "c1" "alice" "read" "R1" 500 }
     1000 500 "R1" "c1" "alice" "read" "R1" (by norm_num) rfl⟩

/-! ## C7 — bearer token source rules -/

theorem JsVal.truthy_bool (b : Bool) : (JsVal.bool b).truthy = b := rfl

theorem JsVal.truthy_obj (fs : List (String × JsVal)) : (JsVal.obj fs).truthy = true := rfl

theorem JsVal.truthy_undef : JsVal.undef.truthy = false := rfl

/-- A parse failure short-circuits the bearer-authenticate pipeline: no
Model call is made, the error response is shaped, and the error re-raised. -/
theorem authenticateExecute_of_init_error (m : Model) (opts : AuthenticateOptions) (now : Int)
    (request : Request) (response : Resp) (e : Thrown)
    (h : AuthenticateRequest.init request opts.allowBearerTokensInQueryString = .error e) :
    AuthenticateHandler.execute m opts now request response =
      (.error e, [], AuthenticateResponse.setErrorResponse e response) := by
  unfold AuthenticateHandler.execute AuthenticateHandler.executeBody
  simp [Bind.bind, M.bind, M.run, M.ofExcept, h]

/-- C7: with none of the three bearer-token sources present the result is
`unauthorized_request` — status 401, challenge header
`WWW-Authenticate: Bearer realm="Service"`, error body; with more than one
source present the result is `invalid_request` (400, error body). -/
theorem c7_bearer_zero_or_multiple_sources :
    (∀ (m : Model) (opts : AuthenticateOptions) (now : Int) (request : Request) (response : Resp),
      optTruthy (request.get "Authorization") = false →
      optTruthy (lookupStr request.query "access_token") = false →
      optTruthy (lookupStr request.body "access_token") = false →
      (AuthenticateHandler.execute m opts now request response).1 =
          .error (Errors.unauthorizedRequest "Unauthorized request: no authentication given") ∧
        (AuthenticateHandler.execute m opts now request response).2.2.status = 401 ∧
        (AuthenticateHandler.execute m opts now request response).2.2.getHeader
            "WWW-Authenticate" = some "Bearer realm=\"Service\"" ∧
        (AuthenticateHandler.execute m opts now request response).2.2.body =
          .obj [("error", .str "unauthorized_request"),
                ("error_description", .str "Unauthorized request: no authentication given")]) ∧
    (∀ (m : Model) (opts : AuthenticateOptions) (now : Int) (request : Request) (response : Resp),
      ((if optTruthy (request.get "Authorization") then 1 else 0)
        + (if optTruthy (lookupStr request.query "access_token") then 1 else 0)
        + (if optTruthy (lookupStr request.body "access_token") then 1 else 0) : Nat) > 1 →
      (AuthenticateHandler.execute m opts now request response).1 =
          .error (Errors.invalidRequest
            "Invalid request: only one authentication method is allowed") ∧
        (AuthenticateHandler.execute m opts now request response).2.2.status = 400 ∧
        (AuthenticateHandler.execute m opts now request response).2.2.body =
          .obj [("error", .str "invalid_request"),
                ("error_description",
                 .str "Invalid request: only one authentication method is allowed")]) := by
  constructor
  · intro m opts now request response h1 h2 h3
    have hinit : AuthenticateRequest.init request opts.allowBearerTokensInQueryString =
        .error (Errors.unauthorizedRequest "Unauthorized request: no authentication given") := by
      unfold AuthenticateRequest.init
      simp [h1, h2, h3, Bind.bind, Except.bind, throw, throwThe, MonadExceptOf.throw]
    rw [authenticateExecute_of_init_error m opts now request response _ hinit]
    refine ⟨rfl, ?_, ?_, ?_⟩ <;>
      simp [AuthenticateResponse.setErrorResponse, Thrown.errName, Errors.unauthorizedRequest,
        wrapServerError, Resp.setStatus, Resp.setBody, Resp.setHeader, Resp.getHeader,
        lookupStr_setParam_self]
  · intro m opts now request response hcount
    have hinit : AuthenticateRequest.init request opts.allowBearerTokensInQueryString =
        .error (Errors.invalidRequest
          "Invalid request: only one authentication method is allowed") := by
      cases hH : optTruthy (request.get "Authorization") <;>
        cases hQ : optTruthy (lookupStr request.query "access_token") <;>
          cases hB : optTruthy (lookupStr request.body "access_token") <;>
            simp [hH, hQ, hB] at hcount ⊢ <;>
            · unfold AuthenticateRequest.init
              simp [hH, hQ, hB, Bind.bind, Except.bind, throw, throwThe, MonadExceptOf.throw,
                Pure.pure, Except.pure]
    rw [authenticateExecute_of_init_error m opts now request response _ hinit]
    refine ⟨rfl, ?_, ?_⟩ <;>
      simp [AuthenticateResponse.setErrorResponse, Thrown.errName, Errors.invalidRequest,
        wrapServerError, Resp.setStatus, Resp.setBody, Resp.setHeader]

/-- C7 witness: the concrete no-credentials GET and the concrete
header-plus-query request. -/
theorem c7_bearer_zero_or_multiple_sources_witness :
    (AuthenticateHandler.execute stubModel authOptions 1000 requestC7none Resp.init).2.2.status =
        401 ∧
    (AuthenticateHandler.execute stubModel authOptions 1000 requestC7none
        Resp.init).2.2.getHeader "WWW-Authenticate" = some "Bearer realm=\"Service\"" ∧
    (AuthenticateHandler.execute stubModel authOptions 1000 requestC7both Resp.init).1 =
      .error (Errors.invalidRequest
        "Invalid request: only one authentication method is allowed") ∧
    (AuthenticateHandler.execute stubModel authOptions 1000 requestC7both Resp.init).2.2.status =
      400 := by
  have h1 := c7_bearer_zero_or_multiple_sources.1 stubModel authOptions 1000 requestC7none
    Resp.init (by decide) (by decide) (by decide)
  have h2 := c7_bearer_zero_or_multiple_sources.2 stubModel authOptions 1000 requestC7both
    Resp.init (by decide)
  exact ⟨h1.2.1, h1.2.2.1, h2.1, h2.2.1⟩

/-! ## C10 — introspection with a missing expiry instant -/

/-- C10: when the token is found and bound to the authenticated client but
the record lacks the expiry instant selected by the hint —
`accessTokenExpiresAt` under `token_hint=access_token`,
`refreshTokenExpiresAt` under `token_hint=refresh_token` — the endpoint does
not answer `{active: false}`: the `expiresAt.getTime()` read throws, the
exception is wrapped as `server_error`, and the response is the 500 error
body.  The refresh-hint half uses a record whose access expiry is present,
so it is the hint-selected instant whose absence throws. -/
theorem c10_introspect_missing_expiry_is_server_error :
    (∀ (m : Model) (now : Int) (tk : String) (clientId clientSecret : Option String)
        (isAuthHeader : Bool) (response : Resp) (cid uV sV : String),
      m.getClient clientId clientSecret = clientWithId cid →
      m.getAccessToken tk = tokenSansExpiry cid uV sV →
      IntrospectHandler.execute m now tk "access_token" clientId clientSecret isAuthHeader
          response =
        (.error (.typeError "expiresAt.getTime is not a function"),
         [.getClient clientId clientSecret, .getAccessToken tk],
         ⟨500, response.headers,
          .obj [("error", .str "server_error"),
                ("error_description", .str "expiresAt.getTime is not a function")]⟩)) ∧
    (∀ (m : Model) (now t : Int) (tk : String) (clientId clientSecret : Option String)
        (isAuthHeader : Bool) (response : Resp) (cid uV sV : String),
      m.getClient clientId clientSecret = clientWithId cid →
      m.getRefreshToken tk = tokenAccessExpiryOnly cid uV sV t →
      IntrospectHandler.execute m now tk "refresh_token" clientId clientSecret isAuthHeader
          response =
        (.error (.typeError "expiresAt.getTime is not a function"),
         [.getClient clientId clientSecret, .getRefreshToken tk],
         ⟨500, response.headers,
          .obj [("error", .str "server_error"),
                ("error_description", .str "expiresAt.getTime is not a function")]⟩)) := by
  constructor
  · intro m now tk clientId clientSecret isAuthHeader response cid uV sV h1 h2
    unfold IntrospectHandler.execute IntrospectHandler.executeBody
      IntrospectHandler.authenticateClient IntrospectHandler.verifyToken
    simp [Bind.bind, M.bind, M.run, M.call, Model.callGetClient, Model.callGetAccessToken,
      M.pure, Pure.pure, M.throw, M.ofExcept, h1, h2, clientWithId, tokenSansExpiry,
      JsVal.truthy, JsVal.get, JsVal.get.goGet, JsVal.getE, JsVal.beq_str,
      IntrospectHandler.composeIntrospectResult, Except.bind, Except.pure, throw, throwThe,
      MonadExceptOf.throw, IntrospectResponse.setErrorResponse, Thrown.errName,
      wrapServerError, Resp.setStatus, Resp.setBody, Resp.setHeader]
  · intro m now t tk clientId clientSecret isAuthHeader response cid uV sV h1 h2
    unfold IntrospectHandler.execute IntrospectHandler.executeBody
      IntrospectHandler.authenticateClient IntrospectHandler.verifyToken
    simp [Bind.bind, M.bind, M.run, M.call, Model.callGetClient, Model.callGetRefreshToken,
      M.pure, Pure.pure, M.throw, M.ofExcept, h1, h2, clientWithId, tokenAccessExpiryOnly,
      JsVal.truthy, JsVal.get, JsVal.get.goGet, JsVal.getE, JsVal.beq_str,
      IntrospectHandler.composeIntrospectResult, Except.bind, Except.pure, throw, throwThe,
      MonadExceptOf.throw, IntrospectResponse.setErrorResponse, Thrown.errName,
      wrapServerError, Resp.setStatus, Resp.setBody, Resp.setHeader]

/-- C10 witness: the concrete Model, under both hints — an access-token
record lacking `accessTokenExpiresAt`, and a refresh-token record that has
an access expiry but lacks `refreshTokenExpiresAt`. -/
theorem c10_introspect_missing_expiry_is_server_error_witness :
    IntrospectHandler.execute modelC10 1000 "AT" "access_token" (some "c1") (some "s1") false
        Resp.init =
      (.error (.typeError "expiresAt.getTime is not a function"),
       [.getClient (some "c1") (some "s1"), .getAccessToken "AT"],
       ⟨500, [],
        .obj [("error", .str "server_error"),
              ("error_description", .str "expiresAt.getTime is not a function")]⟩) ∧
    IntrospectHandler.execute modelC10 1000 "RT" "refresh_token" (some "c1") (some "s1") false
        Resp.init =
      (.error (.typeError "expiresAt.getTime is not a function"),
       [.getClient (some "c1") (some "s1"), .getRefreshToken "RT"],
       ⟨500, [],
        .obj [("error", .str "server_error"),
              ("error_description", .str "expiresAt.getTime is not a function")]⟩) :=
  ⟨c10_introspect_missing_expiry_is_server_error.1 modelC10 1000 "AT" (some "c1") (some "s1")
     false Resp.init "c1" "alice" "read" rfl rfl,
   c10_introspect_missing_expiry_is_server_error.2 modelC10 1000 2000 "RT" (some "c1")
     (some "s1") false Resp.init "c1" "alice" "read" rfl rfl⟩

/-! ## C8 — revoke endpoint behaviour -/

/-- When the hint-selected lookup yields a falsy record (unknown token), the
revoke flow still answers 200 with an empty body and makes no revoke call. -/
theorem revokeExecute_unknown_token (m : Model) (tk hint : String)
    (clientId clientSecret : Option String) (isAuthHeader : Bool) (response : Resp)
    (hcl : (m.getClient clientId clientSecret).truthy = true)
    (hF : (if hint == "access_token" then m.getAccessToken tk
           else m.getRefreshToken tk).truthy = false) :
    RevokeHandler.execute m tk hint clientId clientSecret isAuthHeader response =
      (.ok (),
       [.getClient clientId clientSecret,
        (if hint == "access_token" then MEvent.getAccessToken tk
         else MEvent.getRefreshToken tk)],
       ⟨200, response.headers, .obj []⟩) := by
  unfold RevokeHandler.execute RevokeHandler.executeBody RevokeHandler.authenticateClient
    RevokeHandler.verifyToken RevokeHandler.invalidateToken
  cases hh : (hint == "access_token") <;> simp [hh] at hF <;>
    simp [Bind.bind, M.bind, M.run, M.call, Model.callGetClient, Model.callGetAccessToken,
      Model.callGetRefreshToken, M.pure, Pure.pure, M.throw, M.ofExcept, hh, hcl, hF,
      JsVal.truthy_bool, RevokeResponse.setSuccessResponse, Resp.setStatus, Resp.setBody]

/-- When the loaded token is truthy, carries a `client` object, and that
client's id strictly equals the authenticated client's id, the revoke flow
answers 200 with an empty body after invoking the hint-selected revocation
capability. -/
theorem revokeExecute_client_match (m : Model) (tk hint : String)
    (clientId clientSecret : Option String) (isAuthHeader : Bool) (response : Resp)
    (cfs : List (String × JsVal))
    (hcl : (m.getClient clientId clientSecret).truthy = true)
    (hT : (if hint == "access_token" then m.getAccessToken tk
           else m.getRefreshToken tk).truthy = true)
    (hcv : (if hint == "access_token" then m.getAccessToken tk
            else m.getRefreshToken tk).get "client" = .obj cfs)
    (hbid : ((JsVal.obj cfs).get "id" == (m.getClient clientId clientSecret).get "id") = true) :
    RevokeHandler.execute m tk hint clientId clientSecret isAuthHeader response =
      (.ok (),
       [.getClient clientId clientSecret,
        (if hint == "access_token" then MEvent.getAccessToken tk
         else MEvent.getRefreshToken tk),
        (if hint == "access_token" then MEvent.revokeAccessToken (m.getAccessToken tk)
         else MEvent.revokeRefreshToken (m.getRefreshToken tk))],
       ⟨200, response.headers, .obj []⟩) := by
  unfold RevokeHandler.execute RevokeHandler.executeBody RevokeHandler.authenticateClient
    RevokeHandler.verifyToken RevokeHandler.invalidateToken
  cases hh : (hint == "access_token") <;> simp [hh] at hT hcv <;>
    simp [Bind.bind, M.bind, M.run, M.call, Model.callGetClient, Model.callGetAccessToken,
      Model.callGetRefreshToken, Model.callRevokeAccessToken, Model.callRevokeRefreshToken,
      M.pure, Pure.pure, M.throw, M.ofExcept, hh, hcl, hT, hcv, hbid, JsVal.getE,
      RevokeResponse.setSuccessResponse, Resp.setStatus, Resp.setBody]

/-- When the loaded token is truthy and carries a `client` object whose id
differs from the authenticated client's, the revoke flow answers 200 with
an empty body and makes no revoke call. -/
theorem revokeExecute_client_mismatch (m : Model) (tk hint : String)
    (clientId clientSecret : Option String) (isAuthHeader : Bool) (response : Resp)
    (cfs : List (String × JsVal))
    (hcl : (m.getClient clientId clientSecret).truthy = true)
    (hT : (if hint == "access_token" then m.getAccessToken tk
           else m.getRefreshToken tk).truthy = true)
    (hcv : (if hint == "access_token" then m.getAccessToken tk
            else m.getRefreshToken tk).get "client" = .obj cfs)
    (hbid : ((JsVal.obj cfs).get "id" == (m.getClient clientId clientSecret).get "id")
      = false) :
    RevokeHandler.execute m tk hint clientId clientSecret isAuthHeader response =
      (.ok (),
       [.getClient clientId clientSecret,
        (if hint == "access_token" then MEvent.getAccessToken tk
         else MEvent.getRefreshToken tk)],
       ⟨200, response.headers, .obj []⟩) := by
  unfold RevokeHandler.execute RevokeHandler.executeBody RevokeHandler.authenticateClient
    RevokeHandler.verifyToken RevokeHandler.invalidateToken
  cases hh : (hint == "access_token") <;> simp [hh] at hT hcv <;>
    simp [Bind.bind, M.bind, M.run, M.call, Model.callGetClient, Model.callGetAccessToken,
      Model.callGetRefreshToken, M.pure, Pure.pure, M.throw, M.ofExcept, hh, hcl, hT, hcv,
      hbid, JsVal.getE, JsVal.truthy_bool, RevokeResponse.setSuccessResponse, Resp.setStatus,
      Resp.setBody]

/-- C8: once parsing and client authentication succeed, the revoke endpoint
answers 200 with an empty body whether or not the token is known or owned by
the caller, and the Model revocation capability is invoked exactly when the
loaded token is truthy and its `client.id` equals the authenticated
client's id — never for an unknown token. -/
theorem c8_revoke_success_and_exact_revocation (m : Model) (tk hint : String)
    (clientId clientSecret : Option String) (isAuthHeader : Bool) (response : Resp)
    (hcl : (m.getClient clientId clientSecret).truthy = true) :
    (((if hint == "access_token" then m.getAccessToken tk
        else m.getRefreshToken tk).truthy = false →
      RevokeHandler.execute m tk hint clientId clientSecret isAuthHeader response =
        (.ok (),
         [.getClient clientId clientSecret,
          (if hint == "access_token" then MEvent.getAccessToken tk
           else MEvent.getRefreshToken tk)],
         ⟨200, response.headers, .obj []⟩))) ∧
    (∀ cfs : List (String × JsVal),
      (if hint == "access_token" then m.getAccessToken tk
        else m.getRefreshToken tk).truthy = true →
      (if hint == "access_token" then m.getAccessToken tk
        else m.getRefreshToken tk).get "client" = .obj cfs →
      ((((JsVal.obj cfs).get "id" == (m.getClient clientId clientSecret).get "id") = true →
        RevokeHandler.execute m tk hint clientId clientSecret isAuthHeader response =
          (.ok (),
           [.getClient clientId clientSecret,
            (if hint == "access_token" then MEvent.getAccessToken tk
             else MEvent.getRefreshToken tk),
            (if hint == "access_token" then MEvent.revokeAccessToken (m.getAccessToken tk)
             else MEvent.revokeRefreshToken (m.getRefreshToken tk))],
           ⟨200, response.headers, .obj []⟩)) ∧
       (((JsVal.obj cfs).get "id" == (m.getClient clientId clientSecret).get "id") = false →
        RevokeHandler.execute m tk hint clientId clientSecret isAuthHeader response =
          (.ok (),
           [.getClient clientId clientSecret,
            (if hint == "access_token" then MEvent.getAccessToken tk
             else MEvent.getRefreshToken tk)],
           ⟨200, response.headers, .obj []⟩)))) :=
  ⟨fun hF => revokeExecute_unknown_token m tk hint clientId clientSecret isAuthHeader response
     hcl hF,
   fun cfs hT hcv =>
     ⟨fun hbid => revokeExecute_client_match m tk hint clientId clientSecret isAuthHeader
        response cfs hcl hT hcv hbid,
      fun hbid => revokeExecute_client_mismatch m tk hint clientId clientSecret isAuthHeader
        response cfs hcl hT hcv hbid⟩⟩

/-- C8 witness: revoking an unknown refresh token with a valid client —
200, empty body, no Model revoke call in the trace. -/
theorem c8_revoke_success_and_exact_revocation_witness :
    RevokeHandler.execute modelC8 "unknown" "refresh_token" (some "c1") (some "s1") false
        Resp.init =
      (.ok (),
       [.getClient (some "c1") (some "s1"), .getRefreshToken "unknown"],
       ⟨200, [], .obj []⟩) := by
  have h := (c8_revoke_success_and_exact_revocation modelC8 "unknown" "refresh_token"
    (some "c1") (some "s1") false Resp.init rfl).1 rfl
  simpa using h

/-! ## C1 — what the authorization-code flow passes to `saveToken` -/

/-- C1: the claim says a successful redemption calls
`Model.saveToken(client, user, tokenRecord)` with the authenticated client
and the code's user, the token's scope copied from the code.  The source
calls `this.createToken(code, client)` against the signature
`createToken(client, code)`, so the concrete successful redemption below
persists with the swapped arguments: `saveToken` receives the code record
in the client position, `undefined` as the user (destructured from the
authenticated client, which has no `user` field), and a token whose `scope`
is `undefined` instead of the code's `"read"`. -/
theorem c1_save_token_receives_swapped_arguments :
    (AuthorizationCodeGrant.execute modelC1 tokenOptions 1000 "AT" "RT" requestC1
        clientC1).run =
      (.ok (.obj [("access_token", .str "AT"), ("token_type", .str "Bearer")]),
       [.getAuthorizationCode "K",
        .revokeAuthorizationCode codeRecC1,
        .saveToken codeRecC1 .undef savedTokenInputC1]) := rfl

/-! ## C6 — revocation is observed before the new token is saved -/

/-- The authorization-code validation step extends the trace by exactly its
`getAuthorizationCode` call, whatever its outcome. -/
theorem validateAuthorizationCode_run (m : Model) (now : Int)
    (atr : AuthorizationCodeGrant.AccessTokenRequest) (client : JsVal) (tr : List MEvent) :
    ∃ res : Except Thrown JsVal,
      AuthorizationCodeGrant.validateAuthorizationCode m now atr client tr =
        (res, tr ++ [.getAuthorizationCode atr.code]) := by
  unfold AuthorizationCodeGrant.validateAuthorizationCode
  simp only [Model.callGetAuthorizationCode, M.call, Bind.bind, M.bind, ite_apply, M.throw,
    M.pure, Pure.pure]
  repeat' split
  all_goals exact ⟨_, rfl⟩

/-- `deleteAuthorizationCode` makes exactly the revocation call, failing
with `invalid_grant` when its result is falsy. -/
theorem deleteAuthorizationCode_run (m : Model) (code : JsVal) (tr : List MEvent) :
    AuthorizationCodeGrant.deleteAuthorizationCode m code tr =
      ((if (m.revokeAuthorizationCode code).truthy then .ok ()
        else .error (Errors.invalidGrant "Invalid grant: authorization code is invalid")),
       tr ++ [.revokeAuthorizationCode code]) := by
  unfold AuthorizationCodeGrant.deleteAuthorizationCode
  simp only [Model.callRevokeAuthorizationCode, M.call, Bind.bind, M.bind, M.throw, M.pure,
    Pure.pure]
  split <;> simp_all [M.throw, M.pure]

/-- `createToken` (authorization-code flow) either fails before persisting
(scope rejection) leaving the trace untouched, or makes exactly one
`saveToken` call whose client argument is its first value parameter. -/
theorem authCodeCreateToken_run (m : Model) (opts : GrantOptions) (now : Int)
    (freshAccess freshRefresh : String) (x y : JsVal) (tr : List MEvent) :
    (∃ e, AuthorizationCodeGrant.createToken m opts now freshAccess freshRefresh x y tr =
        (.error e, tr)) ∨
    (∃ u tok, AuthorizationCodeGrant.createToken m opts now freshAccess freshRefresh x y tr =
        (.ok (m.saveToken x u tok), tr ++ [.saveToken x u tok])) := by
  unfold AuthorizationCodeGrant.createToken AbstractGrant.validateScope Model.callSaveToken
  cases hvs : m.validateScope with
  | none =>
    simp only [hvs, Bind.bind, M.bind, M.call, M.pure, Pure.pure]
    right; exact ⟨_, _, rfl⟩
  | some vs =>
    by_cases ht : (vs x (JsVal.get y "user") (JsVal.get y "scope")).truthy = true
    · simp only [hvs, ht, if_true, Bind.bind, M.bind, M.call, M.pure, Pure.pure]
      right; exact ⟨_, _, rfl⟩
    · simp only [hvs, ht, if_false, Bind.bind, M.bind, M.call, M.pure, Pure.pure, M.throw,
        Bool.not_eq_true]
      left; exact ⟨_, rfl⟩

/-- Possible traces of the authorization-code flow: nothing, the code load,
load-then-revoke (with `invalid_grant` forced when the revocation result is
falsy), or load-revoke-save with a truthy revocation result. -/
theorem authCodeExecute_shape (m : Model) (opts : GrantOptions) (now : Int)
    (freshAccess freshRefresh : String) (request : Request) (client : JsVal) :
    (∃ e, (AuthorizationCodeGrant.execute m opts now freshAccess freshRefresh request
        client).run = (.error e, [])) ∨
    (∃ e a, (AuthorizationCodeGrant.execute m opts now freshAccess freshRefresh request
        client).run = (.error e, [.getAuthorizationCode a])) ∨
    (∃ e a cd,
      (AuthorizationCodeGrant.execute m opts now freshAccess freshRefresh request client).run
        = (.error e, [.getAuthorizationCode a, .revokeAuthorizationCode cd]) ∧
      ((m.revokeAuthorizationCode cd).truthy = false →
        e = Errors.invalidGrant "Invalid grant: authorization code is invalid")) ∨
    (∃ a cd u tok res,
      (AuthorizationCodeGrant.execute m opts now freshAccess freshRefresh request client).run
        = (res, [.getAuthorizationCode a, .revokeAuthorizationCode cd, .saveToken cd u tok]) ∧
      (m.revokeAuthorizationCode cd).truthy = true) := by
  unfold AuthorizationCodeGrant.execute
  cases hinit : AuthorizationCodeGrant.AccessTokenRequest.init request client with
  | error e => exact Or.inl ⟨e, by simp [M.run, Bind.bind, M.bind, M.ofExcept, hinit]⟩
  | ok atr =>
    obtain ⟨res1, hres1⟩ := validateAuthorizationCode_run m now atr client []
    cases res1 with
    | error e =>
      exact Or.inr (Or.inl ⟨e, atr.code, by
        simp [M.run, Bind.bind, M.bind, M.ofExcept, hinit, hres1]⟩)
    | ok code =>
      cases hru : AuthorizationCodeGrant.validateRedirectUri code atr with
      | error e =>
        exact Or.inr (Or.inl ⟨e, atr.code, by
          simp [M.run, Bind.bind, M.bind, M.ofExcept, hinit, hres1, hru]⟩)
      | ok u0 =>
        have hdel := deleteAuthorizationCode_run m code [MEvent.getAuthorizationCode atr.code]
        by_cases hrev : (m.revokeAuthorizationCode code).truthy = true
        · rcases authCodeCreateToken_run m opts now freshAccess freshRefresh code client
              [MEvent.getAuthorizationCode atr.code, MEvent.revokeAuthorizationCode code] with
            ⟨e, hct⟩ | ⟨u, tok, hct⟩
          · refine Or.inr (Or.inr (Or.inl ⟨e, atr.code, code, ?_, ?_⟩))
            · simp [M.run, Bind.bind, M.bind, M.ofExcept, hinit, hres1, hru, hdel, hrev, hct]
            · intro hf; rw [hrev] at hf; cases hf
          · cases htm : TokenModel.init (m.saveToken code u tok)
                opts.allowExtendedTokenAttributes now with
            | error e =>
              exact Or.inr (Or.inr (Or.inr ⟨atr.code, code, u, tok, .error e, by
                simp [M.run, Bind.bind, M.bind, M.ofExcept, hinit, hres1, hru, hdel, hrev,
                  hct, htm], hrev⟩))
            | ok model =>
              cases hbt : BearerToken.valueOf model.accessToken model.accessTokenLifetime
                  model.refreshToken model.scope model.customAttributes with
              | error e =>
                exact Or.inr (Or.inr (Or.inr ⟨atr.code, code, u, tok, .error e, by
                  simp [M.run, Bind.bind, M.bind, M.ofExcept, hinit, hres1, hru, hdel, hrev,
                    hct, htm, hbt], hrev⟩))
              | ok b =>
                exact Or.inr (Or.inr (Or.inr ⟨atr.code, code, u, tok, .ok b, by
                  simp [M.run, Bind.bind, M.bind, M.ofExcept, hinit, hres1, hru, hdel, hrev,
                    hct, htm, hbt], hrev⟩))
        · refine Or.inr (Or.inr (Or.inl
            ⟨Errors.invalidGrant "Invalid grant: authorization code is invalid", atr.code,
             code, ?_, fun _ => rfl⟩))
          simp [M.run, Bind.bind, M.bind, M.ofExcept, hinit, hres1, hru, hdel, hrev]

/-- The refresh-token validation step extends the trace by exactly its
`getRefreshToken` call, whatever its outcome. -/
theorem validateRefreshToken_run (m : Model) (now : Int) (p : String) (client : JsVal)
    (tr : List MEvent) :
    ∃ res : Except Thrown JsVal,
      RefreshTokenGrant.validateRefreshToken m now p client tr =
        (res, tr ++ [.getRefreshToken p]) := by
  unfold RefreshTokenGrant.validateRefreshToken
  simp only [Model.callGetRefreshToken, M.call, Bind.bind, M.bind, ite_apply, M.throw,
    M.pure, Pure.pure]
  repeat' split
  all_goals exact ⟨_, rfl⟩

/-- With rotation on, `deleteRefreshToken` makes exactly the revocation
call, failing with `invalid_grant` when its result is falsy. -/
theorem deleteRefreshToken_run (m : Model) (opts : GrantOptions) (token : JsVal)
    (tr : List MEvent) (halways : opts.alwaysIssueNewRefreshToken = true) :
    RefreshTokenGrant.deleteRefreshToken m opts token tr =
      ((if (m.revokeRefreshToken token).truthy then .ok ()
        else .error (Errors.invalidGrant "Invalid grant: refresh token is invalid")),
       tr ++ [.revokeRefreshToken token]) := by
  unfold RefreshTokenGrant.deleteRefreshToken
  simp only [halways, Bool.not_true, Bool.false_eq_true, if_false]
  simp only [Model.callRevokeRefreshToken, M.call, Bind.bind, M.bind, M.throw, M.pure,
    Pure.pure]
  split <;> simp_all [M.throw, M.pure]

/-- `createToken` (refresh flow) makes exactly one `saveToken` call with its
client and user arguments. -/
theorem refreshCreateToken_run (m : Model) (opts : GrantOptions) (now : Int)
    (freshAccess freshRefresh : String) (client user scope : JsVal) (tr : List MEvent) :
    ∃ tok, RefreshTokenGrant.createToken m opts now freshAccess freshRefresh client user scope
        tr = (.ok (m.saveToken client user tok), tr ++ [.saveToken client user tok]) := by
  unfold RefreshTokenGrant.createToken Model.callSaveToken
  simp only [Bind.bind, M.bind, M.call, M.pure, Pure.pure]
  exact ⟨_, rfl⟩

/-- Possible traces of the refresh-token flow under rotation. -/
theorem refreshExecute_shape (m : Model) (opts : GrantOptions) (now : Int)
    (freshAccess freshRefresh : String) (request : Request) (client : JsVal)
    (halways : opts.alwaysIssueNewRefreshToken = true) :
    (∃ e, (RefreshTokenGrant.execute m opts now freshAccess freshRefresh request client).run
        = (.error e, [])) ∨
    (∃ e a, (RefreshTokenGrant.execute m opts now freshAccess freshRefresh request client).run
        = (.error e, [.getRefreshToken a])) ∨
    (∃ e a td,
      (RefreshTokenGrant.execute m opts now freshAccess freshRefresh request client).run
        = (.error e, [.getRefreshToken a, .revokeRefreshToken td]) ∧
      ((m.revokeRefreshToken td).truthy = false →
        e = Errors.invalidGrant "Invalid grant: refresh token is invalid")) ∨
    (∃ a td u tok res,
      (RefreshTokenGrant.execute m opts now freshAccess freshRefresh request client).run
        = (res, [.getRefreshToken a, .revokeRefreshToken td, .saveToken client u tok]) ∧
      (m.revokeRefreshToken td).truthy = true) := by
  unfold RefreshTokenGrant.execute
  cases hinit : RefreshTokenGrant.parseRefreshTokenRequest request with
  | error e => exact Or.inl ⟨e, by simp [M.run, Bind.bind, M.bind, M.ofExcept, hinit]⟩
  | ok p =>
    obtain ⟨res1, hres1⟩ := validateRefreshToken_run m now p client []
    cases res1 with
    | error e =>
      exact Or.inr (Or.inl ⟨e, p, by
        simp [M.run, Bind.bind, M.bind, M.ofExcept, hinit, hres1]⟩)
    | ok token =>
      have hdel := deleteRefreshToken_run m opts token [MEvent.getRefreshToken p] halways
      by_cases hrev : (m.revokeRefreshToken token).truthy = true
      · obtain ⟨tok, hct⟩ := refreshCreateToken_run m opts now freshAccess freshRefresh client
          (token.get "user") (token.get "scope")
          [MEvent.getRefreshToken p, MEvent.revokeRefreshToken token]
        cases htm : TokenModel.init (m.saveToken client (token.get "user") tok)
            opts.allowExtendedTokenAttributes now with
        | error e =>
          exact Or.inr (Or.inr (Or.inr ⟨p, token, token.get "user", tok, .error e, by
            simp [M.run, Bind.bind, M.bind, M.ofExcept, hinit, hres1, hdel, hrev, hct, htm],
            hrev⟩))
        | ok model =>
          cases hbt : BearerToken.valueOf model.accessToken model.accessTokenLifetime
              model.refreshToken model.scope model.customAttributes with
          | error e =>
            exact Or.inr (Or.inr (Or.inr ⟨p, token, token.get "user", tok, .error e, by
              simp [M.run, Bind.bind, M.bind, M.ofExcept, hinit, hres1, hdel, hrev, hct,
                htm, hbt], hrev⟩))
          | ok b =>
            exact Or.inr (Or.inr (Or.inr ⟨p, token, token.get "user", tok, .ok b, by
              simp [M.run, Bind.bind, M.bind, M.ofExcept, hinit, hres1, hdel, hrev, hct,
                htm, hbt], hrev⟩))
      · refine Or.inr (Or.inr (Or.inl
          ⟨Errors.invalidGrant "Invalid grant: refresh token is invalid", p, token, ?_,
           fun _ => rfl⟩))
        simp [M.run, Bind.bind, M.bind, M.ofExcept, hinit, hres1, hdel, hrev]

/-- C6: in the authorization-code flow, and in the refresh-token flow when
`alwaysIssueNewRefreshToken` is true, any `saveToken` call is preceded in
the Model-call trace by the revocation of the consumed credential with a
truthy result; and a falsy revocation result makes the flow fail with
`invalid_grant` with no `saveToken` call at all. -/
theorem c6_revocation_precedes_save :
    (∀ (m : Model) (opts : GrantOptions) (now : Int) (freshAccess freshRefresh : String)
        (request : Request) (client : JsVal),
      (∀ c u tok,
        MEvent.saveToken c u tok ∈
            ((AuthorizationCodeGrant.execute m opts now freshAccess freshRefresh request
              client).run).2 →
        ∃ a cd,
          ((AuthorizationCodeGrant.execute m opts now freshAccess freshRefresh request
              client).run).2 =
            [.getAuthorizationCode a, .revokeAuthorizationCode cd, .saveToken c u tok] ∧
          (m.revokeAuthorizationCode cd).truthy = true) ∧
      (∀ cd,
        MEvent.revokeAuthorizationCode cd ∈
            ((AuthorizationCodeGrant.execute m opts now freshAccess freshRefresh request
              client).run).2 →
        (m.revokeAuthorizationCode cd).truthy = false →
        ((AuthorizationCodeGrant.execute m opts now freshAccess freshRefresh request
            client).run).1 =
            .error (Errors.invalidGrant "Invalid grant: authorization code is invalid") ∧
          ∀ c u tok,
            MEvent.saveToken c u tok ∉
              ((AuthorizationCodeGrant.execute m opts now freshAccess freshRefresh request
                client).run).2)) ∧
    (∀ (m : Model) (opts : GrantOptions) (now : Int) (freshAccess freshRefresh : String)
        (request : Request) (client : JsVal),
      opts.alwaysIssueNewRefreshToken = true →
      (∀ c u tok,
        MEvent.saveToken c u tok ∈
            ((RefreshTokenGrant.execute m opts now freshAccess freshRefresh request
              client).run).2 →
        ∃ a td,
          ((RefreshTokenGrant.execute m opts now freshAccess freshRefresh request
              client).run).2 =
            [.getRefreshToken a, .revokeRefreshToken td, .saveToken c u tok] ∧
          (m.revokeRefreshToken td).truthy = true) ∧
      (∀ td,
        MEvent.revokeRefreshToken td ∈
            ((RefreshTokenGrant.execute m opts now freshAccess freshRefresh request
              client).run).2 →
        (m.revokeRefreshToken td).truthy = false →
        ((RefreshTokenGrant.execute m opts now freshAccess freshRefresh request
            client).run).1 =
            .error (Errors.invalidGrant "Invalid grant: refresh token is invalid") ∧
          ∀ c u tok,
            MEvent.saveToken c u tok ∉
              ((RefreshTokenGrant.execute m opts now freshAccess freshRefresh request
                client).run).2)) := by
  constructor
  · intro m opts now freshAccess freshRefresh request client
    constructor
    · intro c u tok hmem
      rcases authCodeExecute_shape m opts now freshAccess freshRefresh request client with
        ⟨e, h⟩ | ⟨e, a, h⟩ | ⟨e, a, cd, h, _⟩ | ⟨a, cd, u2, tok2, res, h, htr⟩
      · rw [h] at hmem; simp at hmem
      · rw [h] at hmem; simp at hmem
      · rw [h] at hmem; simp at hmem
      · rw [h] at hmem
        simp only [List.mem_cons, List.not_mem_nil, or_false] at hmem
        rcases hmem with h1 | h1 | h1
        · cases h1
        · cases h1
        · cases h1
          exact ⟨a, _, by rw [h], htr⟩
    · intro cd hmem hfalse
      rcases authCodeExecute_shape m opts now freshAccess freshRefresh request client with
        ⟨e, h⟩ | ⟨e, a, h⟩ | ⟨e, a, cd2, h, himp⟩ | ⟨a, cd2, u2, tok2, res, h, htr⟩
      · rw [h] at hmem; simp at hmem
      · rw [h] at hmem; simp at hmem
      · rw [h] at hmem
        simp only [List.mem_cons, List.not_mem_nil, or_false] at hmem
        rcases hmem with h1 | h1
        · cases h1
        · injection h1 with e1; subst e1
          refine ⟨by rw [h, himp hfalse], ?_⟩
          intro c u tok
          rw [h]; simp
      · rw [h] at hmem
        simp only [List.mem_cons, List.not_mem_nil, or_false] at hmem
        rcases hmem with h1 | h1 | h1
        · cases h1
        · injection h1 with e1; subst e1; rw [htr] at hfalse; cases hfalse
        · cases h1
  · intro m opts now freshAccess freshRefresh request client halways
    constructor
    · intro c u tok hmem
      rcases refreshExecute_shape m opts now freshAccess freshRefresh request client
          halways with
        ⟨e, h⟩ | ⟨e, a, h⟩ | ⟨e, a, td, h, _⟩ | ⟨a, td, u2, tok2, res, h, htr⟩
      · rw [h] at hmem; simp at hmem
      · rw [h] at hmem; simp at hmem
      · rw [h] at hmem; simp at hmem
      · rw [h] at hmem
        simp only [List.mem_cons, List.not_mem_nil, or_false] at hmem
        rcases hmem with h1 | h1 | h1
        · cases h1
        · cases h1
        · cases h1
          exact ⟨a, _, by rw [h], htr⟩
    · intro td hmem hfalse
      rcases refreshExecute_shape m opts now freshAccess freshRefresh request client
          halways with
        ⟨e, h⟩ | ⟨e, a, h⟩ | ⟨e, a, td2, h, himp⟩ | ⟨a, td2, u2, tok2, res, h, htr⟩
      · rw [h] at hmem; simp at hmem
      · rw [h] at hmem; simp at hmem
      · rw [h] at hmem
        simp only [List.mem_cons, List.not_mem_nil, or_false] at hmem
        rcases hmem with h1 | h1
        · cases h1
        · injection h1 with e1; subst e1
          refine ⟨by rw [h, himp hfalse], ?_⟩
          intro c u tok
          rw [h]; simp
      · rw [h] at hmem
        simp only [List.mem_cons, List.not_mem_nil, or_false] at hmem
        rcases hmem with h1 | h1 | h1
        · cases h1
        · injection h1 with e1; subst e1; rw [htr] at hfalse; cases hfalse
        · cases h1

/-- C6 witness: in the concrete successful redemption, the `saveToken` call
is preceded by the truthy `revokeAuthorizationCode` call. -/
theorem c6_revocation_precedes_save_witness :
    ∃ a cd,
      ((AuthorizationCodeGrant.execute modelC1 tokenOptions 1000 "AT" "RT" requestC1
          clientC1).run).2 =
        [.getAuthorizationCode a, .revokeAuthorizationCode cd,
         .saveToken codeRecC1 .undef savedTokenInputC1] ∧
      (modelC1.revokeAuthorizationCode cd).truthy = true := by
  refine (c6_revocation_precedes_save.1 modelC1 tokenOptions 1000 "AT" "RT" requestC1
    clientC1).1 codeRecC1 .undef savedTokenInputC1 ?_
  rw [show ((AuthorizationCodeGrant.execute modelC1 tokenOptions 1000 "AT" "RT" requestC1
      clientC1).run).2 =
    [.getAuthorizationCode "K", .revokeAuthorizationCode codeRecC1,
     .saveToken codeRecC1 .undef savedTokenInputC1] from rfl]
  simp
